import Mathlib

/-!
Verification development for the NextDraw motion-planning core
(nextdrawcore: motion.py, plan_utils.py, dripfeed.py, plot_status.py,
homing.py, nextdraw.py).

Python floats are embedded as real numbers, Python ints as integers.
Python round() is embedded as Mathlib round (floor of x + 1/2); the two
differ only at exact halves, which do not occur in any development below.
Collaborator modules that are not part of the repository source
(plotink plot_utils / ebb_calc, and the repository module cubic_eqn that
is not under src/) are modelled from the spec, with a note on each.
-/

noncomputable section

/-- Embedding of Python math.isclose(a, b, rel_tol, abs_tol):
absolute difference within max(rel_tol * max(abs a, abs b), abs_tol). -/
def isclose (a b rel atol : ℝ) : Prop :=
  |a - b| ≤ max (rel * max |a| |b|) atol

instance (a b rel atol : ℝ) : Decidable (isclose a b rel atol) := by
  unfold isclose; infer_instance

/-- Modelled from the spec: plotink plot_utils.distance, the pythagorean
length of the vector (x, y). -/
def distance (x y : ℝ) : ℝ := Real.sqrt (x ^ 2 + y ^ 2)

/-- Modelled from the spec: plotink plot_utils.dotProductXY, the dot product
of two 2-vectors ("cosine of the angle between the unit vectors"). -/
def dotProductXY (u v : ℝ × ℝ) : ℝ := u.1 * v.1 + u.2 * v.2

/-- Modelled from the spec: plotink plot_utils.checkLimitsTol. Clip value
to [lo, hi]; flag an out-of-bounds warning only when the excursion
exceeds the tolerance. -/
def checkLimitsTol (value lo hi tol : ℝ) : ℝ × Bool :=
  if value > hi then (hi, if value > hi + tol then true else false)
  else if value < lo then (lo, if value < lo - tol then true else false)
  else (value, false)

/-- Modelled from the spec: plotink ebb_calc.move_dist_t3.
The EBB firmware, at each of T ISR ticks, folds jerk into acceleration,
acceleration into rate, and rate into a signed fixed-point accumulator;
whole multiples of 2^31 carried out of the accumulator are motor steps
("Accumulator: fixed-point carry of fractional motor steps between
commands, preventing rounding drift").  Closed form of that recurrence:
the accumulator gains rate*T + accel*T(T+1)/2 + jerk*T(T+1)(T+2)/6.
Returns (steps moved, new accumulator value). -/
def move_dist_t3 (time rate accel jerk accum : ℤ) : ℤ × ℤ :=
  let total := accum + rate * time + accel * (time * (time + 1)) / 2
      + jerk * (time * (time + 1) * (time + 2)) / 6
  (total / 2147483648, total % 2147483648)

/-- Modelled from the spec: plotink ebb_calc.rate_t3, the ISR rate after
T ticks of the same recurrence. -/
def rate_t3 (time rate accel jerk : ℤ) : ℤ :=
  rate + accel * time + jerk * (time * (time + 1)) / 2

open Classical in
/-- Modelled from the spec: the repository module nextdrawcore.cubic_eqn
(not under src/) is a general cubic-equation solver; scurve_plan keeps the
smallest positive real root and fails when no positive real root exists
("solve the cubic ... for the smallest positive real root via a general
cubic-equation solver"). -/
def cubicMinPosRoot (a b c d : ℝ) : Option ℝ :=
  if h : ∃ x : ℝ, 0 < x ∧ a * x ^ 3 + b * x ^ 2 + c * x + d = 0 then
    some (sInf {x : ℝ | 0 < x ∧ a * x ^ 3 + b * x ^ 2 + c * x + d = 0})
  else none

/-- plan_utils.calc_jerk: scale the configured jerk values by the cube of the
accel option (cropped above at 100) over 100.  Returns (jerk pen-up, jerk
pen-down). -/
def calc_jerk (accel jerk_pen_up jerk_pen_down : ℝ) : ℝ × ℝ :=
  let accel_scaled := min accel 100 / 100
  let accel_scaled := accel_scaled * accel_scaled * accel_scaled
  (jerk_pen_up * accel_scaled, jerk_pen_down * accel_scaled)

/-- plan_utils.scurve_plan: plan a 1-D S-curve acceleration/deceleration.
With dist = none, returns the distance needed to accelerate from v_in to
v_max (or 0 when already there); with dist given, the velocity reachable
over dist; min_time optionally stretches too-short moves.  The sentinel
returns (None in Python) are the Option none cases. -/
def scurve_plan (v_in0 v_max0 j_m0 : ℝ) (dist0 : Option ℝ) (min_time : Option ℝ) :
    Option ℝ :=
  let v_in := |v_in0|
  let v_max := |v_max0|
  let j_abs := |j_m0|
  let j_m := if j_abs = 0 then 1000 else j_abs
  let t_m := Real.sqrt (|v_max - v_in| / j_m)
  let d_max := 2 * v_in * t_m + j_m * t_m * t_m * t_m
  if dist0 = none ∧ isclose t_m 0 1e-9 0 then some 0
  else
    let p : ℝ × ℝ :=
      match min_time with
      | some mt =>
        if t_m < mt / 2 then
          let t1 := mt / 2
          let jerk_new := |v_max - v_in| / (t1 * t1)
          (t1, 2 * v_in * t1 + jerk_new * t1 * t1 * t1)
        else (t_m, d_max)
      | none => (t_m, d_max)
    match dist0 with
    | none => some p.2
    | some dist1 =>
      let dist := |dist1|
      if dist ≥ p.2 ∨ isclose dist p.2 1e-9 0 then some v_max
      else
        match cubicMinPosRoot j_m 0 (2 * v_in) (-dist) with
        | none => none
        | some t_c =>
          match min_time with
          | some mt =>
            if t_c < mt / 2 then
              let t2 := mt / 2
              if v_in ≠ 0 ∧ dist / v_in < mt then
                some (max ((dist - v_in * t2) / t2) 0)
              else
                let j2 := |dist - 2 * v_in * t2| / (t2 * t2 * t2)
                some (min v_max (v_in + j2 * t2 * t2))
            else some (min v_max (v_in + j_m * t_c * t_c))
          | none => some (min v_max (v_in + j_m * t_c * t_c))

/-- plan_utils.scurve_time: travel time of a 1-D S-curve with known
endpoint speeds and jerk. -/
def scurve_time (v_i v_f jerk : ℝ) : ℝ :=
  if jerk = 0 then 0 else 2 * Real.sqrt |(v_f - v_i) / jerk|

/-- Loop body of plan_utils.scurve_jerk / scurve_jerk2: bisection over the
half-duration t_m, at most 50 iterations (the fuel), testing the current
t_m each round and returning none when the iteration cap runs out. -/
def scurveJerkGo (v_i v_f dist : ℝ) : ℕ → ℝ → ℝ → ℝ → Option ℝ
  | 0, _, _, _ => none
  | n + 1, t_m, lower, upper =>
    let j_temp := |dist - 2 * v_i * t_m| / (t_m * t_m * t_m)
    let v_f_temp := v_i + j_temp * t_m * t_m
    if isclose v_f_temp v_f 1e-9 1e-6 then some j_temp
    else if v_f_temp > v_f then
      scurveJerkGo v_i v_f dist n ((lower + t_m) / 2) lower t_m
    else
      scurveJerkGo v_i v_f dist n ((t_m + upper) / 2) t_m upper

/-- plan_utils.scurve_jerk: find a reduced jerk for a single S-curve with
known endpoint speeds and distance; 50-iteration bisection, none on
non-convergence. -/
def scurve_jerk (v_start v_end dist max_jerk : ℝ) : Option ℝ :=
  let v_i := min v_start v_end
  let v_f := max v_start v_end
  let tm_lower := if v_i = 0 then max 0.003 (dist / (2 * 0.001))
                  else max 0.003 (dist / (2 * v_i))
  let tm_upper := Real.sqrt ((v_f - v_i) / (max_jerk * 1.25))
  scurveJerkGo v_i v_f dist 50 (tm_lower + tm_upper / 10) tm_lower tm_upper

/-- plan_utils.scurve_jerk2: as scurve_jerk, but more lenient (lower bound
constant 0.002, jerk ceiling relaxed by 1.3). -/
def scurve_jerk2 (v_start v_end dist max_jerk : ℝ) : Option ℝ :=
  let v_i := min v_start v_end
  let v_f := max v_start v_end
  let tm_lower := if v_i = 0 then max 0.002 (dist / (2 * 0.001))
                  else max 0.002 (dist / (2 * v_i))
  let tm_upper := Real.sqrt ((v_f - v_i) / (max_jerk * 1.3))
  scurveJerkGo v_i v_f dist 50 (tm_lower + tm_upper / 10) tm_lower tm_upper

/-- Loop body of plan_utils.striangle: bisection over the candidate peak
velocity.  The source loop is `while True` with no iteration cap; the fuel
argument makes the recursion well-founded in Lean, and none means the fuel
ran out with the loop still running (the source would still be looping). -/
def striangleGo (v_i v_f jerk dist : ℝ) : ℕ → ℝ → ℝ → Option ℝ
  | 0, _, _ => none
  | n + 1, lower, upper =>
    let test_v := (lower + upper) / 2
    let test_dist := (scurve_plan v_i test_v jerk none none).getD 0
        + (scurve_plan v_f test_v jerk none none).getD 0
    if isclose test_dist dist 1e-9 1e-5 then some test_v
    else if test_dist > dist then striangleGo v_i v_f jerk dist n lower test_v
    else striangleGo v_i v_f jerk dist n test_v upper

/-- plan_utils.striangle: peak velocity of a short "triangle" move, by
bisection between max(v_i, v_f) and v_max.  The accel/decel distances
computed at the top of the source function are unused there and are kept
here as unused bindings. -/
def striangle (fuel : ℕ) (v_i v_f v_max jerk dist : ℝ) : Option ℝ :=
  let _accel_dist_inch := (scurve_plan v_i v_max jerk none none).getD 0
  let _decel_dist_inch := (scurve_plan v_f v_max jerk none none).getD 0
  let _dist_sse := if v_i ≤ v_f then (scurve_plan v_i v_f jerk none none).getD 0
                   else (scurve_plan v_f v_i jerk none none).getD 0
  striangleGo v_i v_f jerk dist fuel (max v_i v_f) v_max

/-! Data model (spec section 3). -/

/-- pen_handling.PenPosition, the fields read and written by the motion
core: absolute position in inches (None when undefined, checked by the
planners), pen-up state, and the two signed fixed-point sub-step
accumulators of the native motor axes. -/
structure PenPhys where
  xpos : Option ℝ
  ypos : Option ℝ
  z_up : Bool
  accum1 : ℤ
  accum2 : ℤ

/-- A PenPosition whose coordinates are known, as threaded through the
subsegment emitter (the source mutates the same object in place). -/
structure LivePos where
  x : ℝ
  y : ℝ
  zup : Bool
  a1 : ℤ
  a2 : ℤ

/-- Parameters of a T3 firmware command: duration in ISR ticks, then per
motor axis the initial rate, acceleration and jerk in ISR units. -/
structure T3Params where
  time : ℤ
  v1 : ℤ
  a1 : ℤ
  j1 : ℤ
  v2 : ℤ
  a2 : ℤ
  j2 : ℤ

/-- Parameters of a TD firmware command (two back-to-back T3 halves):
duration of each half, then per axis the two initial rates, the
acceleration and the jerk of the second half. -/
structure TDParams where
  time : ℤ
  v1a : ℤ
  v1b : ℤ
  a1 : ℤ
  j1 : ℤ
  v2a : ℤ
  v2b : ℤ
  a2 : ℤ
  j2 : ℤ

/-- A motion command as emitted by compute_subsegment_cmds, with the
per-axis integer step counts the command actually moves (the values
td_seg_data / t3_seg_data return and that the emitter adds to its
prev_motor counters), the subsegment distance, and the post-move position
snapshot (the seg_data trailer of the source). -/
inductive MoveCmd where
  | t3 (p : T3Params) (steps1 steps2 : ℤ) (dist : ℝ) (pos : LivePos)
  | td (p : TDParams) (steps1 steps2 : ℤ) (dist : ℝ) (pos : LivePos)

def cmdSteps1 : MoveCmd → ℤ
  | .t3 _ s _ _ _ => s
  | .td _ s _ _ _ => s

def cmdSteps2 : MoveCmd → ℤ
  | .t3 _ _ s _ _ => s
  | .td _ _ s _ _ => s

/-- Sum over a command list of the motor-1 steps actually moved. -/
def stepsSum1 (l : List MoveCmd) : ℤ := (l.map cmdSteps1).sum

/-- Sum over a command list of the motor-2 steps actually moved. -/
def stepsSum2 (l : List MoveCmd) : ℤ := (l.map cmdSteps2).sum

/-- Machine parameters and options read by the planners (the fields of the
nd_ref object that motion.py consumes). -/
structure ND where
  const_speed : Bool
  step_scale : ℝ
  speed_pendown : ℝ
  speed_penup : ℝ
  accel : ℝ
  jerk_pen_down : ℝ
  jerk_pen_up : ℝ
  resolution : ℕ
  xmin : ℝ
  ymin : ℝ
  xmax : ℝ
  ymax : ℝ
  bounds_tolerance : ℝ
  physXposDefined : Bool

/-- One subsegment of a motion segment, as staged by compute_segment before
emission: kind is the source's subseg_array code (1 S-curve accelerating,
2 S-curve decelerating, 3 constant velocity), jerk the matching jerk_array
entry, and stop the (dist_array, vel_array) entry for non-final
subsegments (the final subsegment has none and ends at the full segment). -/
structure Subseg where
  kind : ℕ
  jerk : ℝ
  stop : Option (ℝ × ℝ)

/-! Results of td_seg_data / t3_seg_data. -/

/-- Return value of td_seg_data / t3_seg_data: total steps moved per motor,
subsegment distance in inches, final per-motor ISR rates, and the updated
position/accumulator record. -/
structure SegOut where
  steps1 : ℤ
  steps2 : ℤ
  dist : ℝ
  rate1 : ℤ
  rate2 : ℤ
  pos : LivePos

/-- plan_utils.td_seg_data: simulate the two T3 halves of a TD command,
threading the step accumulators, and update the position record. -/
def td_seg_data (p : TDParams) (pos : LivePos) (step_scale : ℝ) : SegOut :=
  let r1A := move_dist_t3 p.time p.v1a 0 p.j1 pos.a1
  let r2A := move_dist_t3 p.time p.v2a 0 p.j2 pos.a2
  let m1 := (r1A.1 : ℝ) / (step_scale * 2)
  let m2 := (r2A.1 : ℝ) / (step_scale * 2)
  let dxA := m1 + m2
  let dyA := m1 - m2
  let dA := distance dxA dyA
  let r1B := move_dist_t3 p.time p.v1b p.a1 (-p.j1) r1A.2
  let r2B := move_dist_t3 p.time p.v2b p.a2 (-p.j2) r2A.2
  let n1 := (r1B.1 : ℝ) / (step_scale * 2)
  let n2 := (r2B.1 : ℝ) / (step_scale * 2)
  let dxB := n1 + n2
  let dyB := n1 - n2
  let dB := distance dxB dyB
  { steps1 := r1A.1 + r1B.1
    steps2 := r2A.1 + r2B.1
    dist := dA + dB
    rate1 := rate_t3 p.time p.v1b p.a1 (-p.j1)
    rate2 := rate_t3 p.time p.v2b p.a2 (-p.j2)
    pos := { x := pos.x + dxA + dxB, y := pos.y + dyA + dyB, zup := pos.zup
             a1 := r1B.2, a2 := r2B.2 } }

/-- plan_utils.t3_seg_data: simulate a single T3 command, threading the
step accumulators, and update the position record. -/
def t3_seg_data (p : T3Params) (pos : LivePos) (step_scale : ℝ) : SegOut :=
  let r1 := move_dist_t3 p.time p.v1 p.a1 p.j1 pos.a1
  let r2 := move_dist_t3 p.time p.v2 p.a2 p.j2 pos.a2
  let m1 := (r1.1 : ℝ) / (step_scale * 2)
  let m2 := (r2.1 : ℝ) / (step_scale * 2)
  let dx := m1 + m2
  let dy := m1 - m2
  { steps1 := r1.1
    steps2 := r2.1
    dist := distance dx dy
    rate1 := rate_t3 p.time p.v1 p.a1 p.j1
    rate2 := rate_t3 p.time p.v2 p.a2 p.j2
    pos := { x := pos.x + dx, y := pos.y + dy, zup := pos.zup
             a1 := r1.2, a2 := r2.2 } }

/-! Subsegment emission (motion.compute_subsegment_cmds). -/

/-- Final velocity along the travel direction in ISR units
(round((v * step_scale) * (2^31 / 25000) * v_norm) in the source). -/
def velISR (v step_scale vnorm : ℝ) : ℤ :=
  round (v * step_scale * (2147483648 / 25000) * vnorm)

/-- Per-axis jerk in ISR units
(jerk_rate * step_scale * v_norm * 2^31 / 25000^3 in the source). -/
def jerkISR (jerk_rate step_scale vnorm : ℝ) : ℝ :=
  jerk_rate * step_scale * vnorm * 2147483648 / (25000 * 25000 * 25000)

/-- The S-curve branches (subseg codes 1 and 2) of the emission loop: round
the jerks, solve the per-axis half-durations, pick the axis with the larger
test distance, and emit one TD command; none models the `continue` when the
move time is zero.  decel selects the sign conventions of the decelerating
branch. -/
def emitScurve (decel : Bool) (step_scale : ℝ) (j1r j2r : ℝ)
    (v1 v2 prevV1 prevV2 : ℤ) (pos : LivePos) : Option (MoveCmd × SegOut) :=
  let j1 : ℤ := if decel then -(round j1r) else round j1r
  let j2 : ℤ := if decel then -(round j2r) else round j2r
  let t1 : ℤ := if j1 ≠ 0 then round (Real.sqrt |((v1 - prevV1 : ℤ) : ℝ) / (j1 : ℝ)|) else 0
  let t2 : ℤ := if j2 ≠ 0 then round (Real.sqrt |((v2 - prevV2 : ℤ) : ℝ) / (j2 : ℝ)|) else 0
  let test1 := (move_dist_t3 t1 prevV1 0 j1 0).1
  let test2 := (move_dist_t3 t2 prevV2 0 j2 0).1
  let T := if |test1| > |test2| then t1 else t2
  if T = 0 then none
  else
    let a1 : ℤ := if decel then round (-j1r * (T : ℝ)) else round (j1r * (T : ℝ))
    let a2 : ℤ := if decel then round (-j2r * (T : ℝ)) else round (j2r * (T : ℝ))
    let vel1 := rate_t3 T prevV1 0 j1
    let vel2 := rate_t3 T prevV2 0 j2
    let p : TDParams := ⟨T, prevV1, vel1 + a1, a1, j1, prevV2, vel2 + a2, a2, j2⟩
    let r := td_seg_data p pos step_scale
    some (MoveCmd.td p r.steps1 r.steps2 r.dist r.pos, r)

/-- The constant-velocity branch (subseg code 3) of the emission loop:
per-axis tick counts by ceiling division, larger-test-distance axis wins,
one T3 command; none models the `continue` when the move time is zero. -/
def emitConst (step_scale : ℝ) (ss1 ss2 : ℤ) (v1 v2 : ℤ) (pos : LivePos) :
    Option (MoveCmd × SegOut) :=
  let t1 : ℤ := if v1 ≠ 0 then ⌈|(ss1 : ℝ) / ((v1 : ℝ) / 2147483648)|⌉ else 0
  let t2 : ℤ := if v2 ≠ 0 then ⌈|(ss2 : ℝ) / ((v2 : ℝ) / 2147483648)|⌉ else 0
  let test1 := (move_dist_t3 t1 v1 0 0 0).1
  let test2 := (move_dist_t3 t2 v2 0 0 0).1
  let T := if |test1| > |test2| then t1 else t2
  if T = 0 then none
  else
    let p : T3Params := ⟨T, v1, 0, 0, v2, 0, 0⟩
    let r := t3_seg_data p pos step_scale
    some (MoveCmd.t3 p r.steps1 r.steps2 r.dist r.pos, r)

/-- Context of one emission run: full-segment step targets, step scale,
direction cosines (scaled by sqrt 2 as in the source), segment length and
required final speed. -/
structure EmCtx where
  s1 : ℤ
  s2 : ℤ
  S : ℝ
  vnorm1 : ℝ
  vnorm2 : ℝ
  segLen : ℝ
  vf : ℝ

/-- The main loop of motion.compute_subsegment_cmds, over the staged
subsegments, threading prev_motor step counters, prev_vel ISR rates and
the position record.  The last subsegment targets the full rounded segment
(motor_steps) and the final speed; earlier ones target their dist_array /
vel_array entries. -/
def emitGo (ctx : EmCtx) :
    List Subseg → ℤ → ℤ → ℤ → ℤ → LivePos → List MoveCmd × LivePos
  | [], _, _, _, _, pos => ([], pos)
  | sub :: rest, pM1, pM2, pV1, pV2, pos =>
    let dest : ℤ × ℤ × ℝ :=
      if rest.isEmpty then (ctx.s1, ctx.s2, ctx.vf)
      else
        match sub.stop with
        | some dv => (round ((ctx.s1 : ℝ) * dv.1 / ctx.segLen),
                      round ((ctx.s2 : ℝ) * dv.1 / ctx.segLen), dv.2)
        | none => (ctx.s1, ctx.s2, ctx.vf)
    let ss1 := dest.1 - pM1
    let ss2 := dest.2.1 - pM2
    let v1 := velISR dest.2.2 ctx.S ctx.vnorm1
    let v2 := velISR dest.2.2 ctx.S ctx.vnorm2
    let j1r := jerkISR sub.jerk ctx.S ctx.vnorm1
    let j2r := jerkISR sub.jerk ctx.S ctx.vnorm2
    let step : Option (MoveCmd × SegOut) :=
      if sub.kind = 1 then emitScurve false ctx.S j1r j2r v1 v2 pV1 pV2 pos
      else if sub.kind = 2 then emitScurve true ctx.S j1r j2r v1 v2 pV1 pV2 pos
      else emitConst ctx.S ss1 ss2 v1 v2 pos
    match step with
    | none => emitGo ctx rest pM1 pM2 pV1 pV2 pos
    | some (cmd, r) =>
      let res := emitGo ctx rest (pM1 + r.steps1) (pM2 + r.steps2) r.rate1 r.rate2 r.pos
      (cmd :: res.1, res.2)

/-- motion.compute_subsegment_cmds: set up the direction cosines and the
initial ISR rates (input velocity projected along the new segment), then
run the emission loop from zeroed prev_motor counters. -/
def compute_subsegment_cmds (vi : ℝ) (s1 s2 : ℤ) (step_scale vf segLen : ℝ)
    (subs : List Subseg) (pos : LivePos) : List MoveCmd × LivePos :=
  let msd := distance (s1 : ℝ) (s2 : ℝ)
  let vn1 := Real.sqrt 2 * (s1 : ℝ) / msd
  let vn2 := Real.sqrt 2 * (s2 : ℝ) / msd
  let pv1 := velISR vi step_scale vn1
  let pv2 := velISR vi step_scale vn2
  emitGo ⟨s1, s2, step_scale, vn1, vn2, segLen, vf⟩ subs 0 0 pv1 pv2 pos

/-! Segment classification and compilation (motion.compute_segment). -/

/-- The case classification of motion.compute_segment (the value of the
`case` variable after the if/elif chain, before the possible demotion of
case 7 to case 0).  The source also computes t_sse there, used only by
commented-out logic. -/
def seg_case (constMode : Bool) (vi vf L jerk dist : ℝ) : ℕ :=
  let cst := if isclose vi 0 1e-9 0 then (100 : ℝ) else dist / vi
  if constMode ∨ (isclose vi L 1e-9 0 ∧ isclose vf L 1e-9 0) then 3
  else if isclose vi vf 1e-9 1e-2 ∧ cst < 0.013 then 3
  else if isclose vi vf 1e-9 1e-2 ∧ cst < 0.030 ∧ vi > L / 2 then 3
  else
    let accel_dist := (scurve_plan vi L jerk none none).getD 0
    let decel_dist := (scurve_plan vf L jerk none none).getD 0
    let dist_svm := accel_dist + decel_dist
    let dist_sse := if vi ≤ vf then (scurve_plan vi vf jerk none none).getD 0
                    else (scurve_plan vf vi jerk none none).getD 0
    if dist ≥ dist_svm then
      if isclose vi L 1e-9 0 then (if isclose dist dist_svm 1e-9 0 then 2 else 4)
      else if isclose vf L 1e-9 0 then (if isclose dist dist_svm 1e-9 0 then 1 else 5)
      else 6
    else
      if isclose vi vf 1e-9 1e-3 ∧ isclose vi 0 1e-9 1e-3 then 7
      else if dist > dist_sse then 7
      else if isclose dist dist_sse 1e-9 1e-3 then (if vi < vf then 1 else 2)
      else 0

/-- The `case == 0` fallback block of motion.compute_segment: solve
scurve_jerk, fall back to the more lenient scurve_jerk2, and plan a single
reduced-jerk S-curve subsegment (jerk_array[-1] replaced by the solution);
none when both solvers fail ("the segment cannot be planned"). -/
def case0_subsegs (vi vf dist jerk : ℝ) : Option (List Subseg) :=
  match scurve_jerk vi vf dist jerk with
  | some jt => some [⟨if vi < vf then 1 else 2, jt, none⟩]
  | none =>
    match scurve_jerk2 vi vf dist jerk with
    | some jt => some [⟨if vi < vf then 1 else 2, jt, none⟩]
    | none => none

/-- The subsegment staging of motion.compute_segment: per case, the
subseg_array / dist_array / vel_array / jerk_array appends, including the
case-7 triangle logic (striangle plus the single-move time comparison that
can demote the segment to the case-0 fallback).  none means planning
failed (both reduced-jerk solvers failed, or the unbounded striangle
bisection was still running when the modelling fuel ran out). -/
def build_subsegs (fuel : ℕ) (constMode : Bool) (vi vf L jerk dist : ℝ) :
    Option (List Subseg) :=
  let c := seg_case constMode vi vf L jerk dist
  let accel_dist := (scurve_plan vi L jerk none none).getD 0
  let decel_dist := (scurve_plan vf L jerk none none).getD 0
  if c = 1 then some [⟨1, jerk, none⟩]
  else if c = 2 then some [⟨2, jerk, none⟩]
  else if c = 3 then some [⟨3, jerk, none⟩]
  else if c = 4 then some [⟨3, jerk, some (dist - decel_dist, L)⟩, ⟨2, jerk, none⟩]
  else if c = 5 then some [⟨1, jerk, some (accel_dist, L)⟩, ⟨3, jerk, none⟩]
  else if c = 6 then
    some [⟨1, jerk, some (accel_dist, L)⟩, ⟨3, jerk, some (dist - decel_dist, L)⟩,
          ⟨2, jerk, none⟩]
  else if c = 7 then
    match striangle fuel vi vf L jerk dist with
    | none => none
    | some v_mid =>
      let time_1 := scurve_time vi v_mid jerk
      let time_2 := scurve_time v_mid vf jerk
      let time_3 := match scurve_jerk vi vf dist jerk with
        | some jt => scurve_time vi vf jt
        | none => (0 : ℝ)
      if time_3 ≠ 0 ∧ (time_1 + time_2 > time_3 ∨ time_1 + time_2 < 0.012) then
        case0_subsegs vi vf dist jerk
      else
        let a_mid := (scurve_plan vi v_mid jerk none none).getD 0
        some [⟨1, jerk, some (a_mid, v_mid)⟩, ⟨2, jerk, none⟩]
  else case0_subsegs vi vf dist jerk

/-- Destination x after the optional bounds check of compute_segment. -/
def destX (nd : ND) (ignore : Bool) (xd : ℝ) : ℝ :=
  if ignore then xd else (checkLimitsTol xd nd.xmin nd.xmax nd.bounds_tolerance).1

/-- Destination y after the optional bounds check of compute_segment. -/
def destY (nd : ND) (ignore : Bool) (yd : ℝ) : ℝ :=
  if ignore then yd else (checkLimitsTol yd nd.ymin nd.ymax nd.bounds_tolerance).1

/-- motor_steps_1 of compute_segment: the native-axis-1 travel
(delta x + delta y) rounded to integer motor steps. -/
def msteps1 (nd : ND) (ignore : Bool) (xd yd fx fy : ℝ) : ℤ :=
  round (nd.step_scale * ((destX nd ignore xd - fx) + (destY nd ignore yd - fy)))

/-- motor_steps_2 of compute_segment: the native-axis-2 travel
(delta x - delta y) rounded to integer motor steps. -/
def msteps2 (nd : ND) (ignore : Bool) (xd yd fx fy : ℝ) : ℤ :=
  round (nd.step_scale * ((destX nd ignore xd - fx) - (destY nd ignore yd - fy)))

/-- The authoritative segment length of compute_segment: the rounded step
counts converted back to inches ("use that as the authoritative travel
distance"). -/
def distInch (nd : ND) (s1 s2 : ℤ) : ℝ :=
  distance ((s1 : ℝ) / (2 * nd.step_scale) + (s2 : ℝ) / (2 * nd.step_scale))
           ((s1 : ℝ) / (2 * nd.step_scale) - (s2 : ℝ) / (2 * nd.step_scale))

/-- Speed limit selected by pen state in compute_segment / plan_trajectory. -/
def penSpeedLimit (nd : ND) (zup : Bool) : ℝ :=
  if zup then nd.speed_penup else nd.speed_pendown

/-- Jerk rate selected by pen state in compute_segment / plan_trajectory. -/
def penJerk (nd : ND) (zup : Bool) : ℝ :=
  if zup then (calc_jerk nd.accel nd.jerk_pen_up nd.jerk_pen_down).1
  else (calc_jerk nd.accel nd.jerk_pen_up nd.jerk_pen_down).2

/-- motion.compute_segment: compile one straight-line segment request
(x_dest, y_dest, v_initial, v_final, ignore_limits) against the current
position into T3/TD commands.  Returns the command list (none on planning
failure or a degenerate/unstartable move, matching the source's
`return None, None`) together with the state of the position record after
the call (the source mutates it in place; failure paths leave it
untouched).  The bounds warning flag is not modelled. -/
def compute_segment (fuel : ℕ) (nd : ND) (data : ℝ × ℝ × ℝ × ℝ × Bool)
    (xyz : PenPhys) : Option (List MoveCmd) × PenPhys :=
  match xyz.xpos, xyz.ypos with
  | some fx, some fy =>
    let xd := data.1
    let yd := data.2.1
    let vi0 := data.2.2.1
    let vf0 := data.2.2.2.1
    let ignore := data.2.2.2.2
    let constMode := nd.const_speed && !xyz.z_up
    let s1 := msteps1 nd ignore xd yd fx fy
    let s2 := msteps2 nd ignore xd yd fx fy
    if s1 = 0 ∧ s2 = 0 then (none, xyz)
    else
      let dist := distInch nd s1 s2
      let L := penSpeedLimit nd xyz.z_up
      let jerk := penJerk nd xyz.z_up
      let vi := if constMode then L else min vi0 L
      let vf := if constMode then L else min vf0 L
      match build_subsegs fuel constMode vi vf L jerk dist with
      | none => (none, xyz)
      | some subs =>
        let r := compute_subsegment_cmds vi s1 s2 nd.step_scale vf dist subs
          ⟨fx, fy, xyz.z_up, xyz.accum1, xyz.accum2⟩
        (some r.1, ⟨some r.2.x, some r.2.y, r.2.zup, r.2.a1, r.2.a2⟩)
  | _, _ => (none, xyz)

/-! Trajectory planning (motion.plan_trajectory). -/

/-- The waypoint filter of plan_trajectory: walk the tail of the vertex
list, measuring each candidate against the last retained vertex, and keep
(vertex, unit direction vector, segment length) for segments at least
min_dist long.  Mirrors trimmed_path / traj_vectors / traj_dists (without
the leading 0 sentinel of traj_dists). -/
def trimPath (minDist : ℝ) : (ℝ × ℝ) → List (ℝ × ℝ) → List ((ℝ × ℝ) × (ℝ × ℝ) × ℝ)
  | _, [] => []
  | last, v :: rest =>
    let dx := v.1 - last.1
    let dy := v.2 - last.2
    let d := distance dx dy
    if d ≥ minDist then (v, (dx / d, dy / d), d) :: trimPath minDist v rest
    else trimPath minDist last rest

/-- The per-vertex cornering computation of plan_trajectory's forward pass
(source lines 300 to 320): renormalize the two adjacent unit vectors, take
their dot product as the cosine factor, clamp it to 0 beyond 90 degrees,
penalize the jerk-limited vertex speed by cos^4 above half the speed limit
and by cos between a quarter and a half, and cap at 80 percent of the
speed limit. -/
def corneringSpeed (w1 w2 : ℝ × ℝ) (vcur L : ℝ) : ℝ :=
  let len1 := distance w1.1 w1.2
  let u1 : ℝ × ℝ := (w1.1 / len1, w1.2 / len1)
  let len2 := distance w2.1 w2.2
  let u2 : ℝ × ℝ := (w2.1 / len2, w2.2 / len2)
  let c0 := dotProductXY u1 u2
  let c := if c0 < 0 then 0 else c0
  let v := if vcur > L * 0.5 then min vcur (vcur * c ^ 4)
           else if vcur > L * 0.25 then min vcur (vcur * c)
           else vcur
  min v (L * 0.8)

/-- The cornering rule as the claim states it: clamp the cosine at 0, then
multiply the speed by cos^4 above 50 percent of the limit, by cos between
25 and 50 percent, leave it unpenalized below 25 percent, and cap at 80
percent of the limit. -/
def corneringSpec (c vcur L : ℝ) : ℝ :=
  let v := if vcur > L * 0.5 then vcur * c ^ 4
           else if vcur > L * 0.25 then vcur * c
           else vcur
  min v (L * 0.8)

/-- Clamped cosine factor between two (to-be-normalized) direction
vectors, as computed inside the forward pass. -/
def cosFactor (w1 w2 : ℝ × ℝ) : ℝ :=
  let len1 := distance w1.1 w1.2
  let len2 := distance w2.1 w2.2
  let c0 := dotProductXY (w1.1 / len1, w1.2 / len1) (w2.1 / len2, w2.2 / len2)
  if c0 < 0 then 0 else c0

/-- Forward pass of plan_trajectory over the internal vertices: each entry
carries (length of the segment arriving at the vertex, incoming unit
vector, outgoing unit vector).  A vertex where scurve_plan fails is
skipped without appending (the source's `continue`). -/
def forwardPass (L jerk : ℝ) : List (ℝ × (ℝ × ℝ) × (ℝ × ℝ)) → ℝ → List ℝ
  | [], _ => []
  | (d, w1, w2) :: rest, vprev =>
    match scurve_plan vprev L jerk (some d) (some 0.007) with
    | none => forwardPass L jerk rest vprev
    | some vc =>
      let v := corneringSpeed w1 w2 vc L
      v :: forwardPass L jerk rest v

/-- Backward (deceleration-limit) pass of plan_trajectory, processed from
the final vertex towards the start: the input list holds
(segment length into vertex i, forward velocity at vertex i-1) from the
last segment backwards, and vfin is the already-updated velocity at
vertex i.  Produces the updated velocities v_(i-1) in the same
(reversed) order. -/
def backGo (L jerk : ℝ) : List (ℝ × ℝ) → ℝ → List ℝ
  | [], _ => []
  | (d, vinit) :: rest, vfin =>
    let keep := d ≤ 0 ∨ vinit < vfin ∨ isclose vinit vfin 1e-9 1e-9
    let v := if keep then vinit
             else min vinit ((scurve_plan vfin L jerk (some d) (some 0.007)).getD vinit)
    v :: backGo L jerk rest v

/-- The segment-emission loop at the end of plan_trajectory: one segment
request per retained leg, with (entry, exit) velocities from the passes;
failed segments leave the position unchanged and contribute no commands. -/
def runSegments (fuel : ℕ) (nd : ND) :
    List ((ℝ × ℝ) × ℝ × ℝ) → PenPhys → List MoveCmd × PenPhys
  | [], xyz => ([], xyz)
  | (v, vi, vf) :: rest, xyz =>
    let r := compute_segment fuel nd (v.1, v.2, vi, vf, false) xyz
    match r.1 with
    | none => runSegments fuel nd rest xyz
    | some cmds =>
      let res := runSegments fuel nd rest r.2
      (cmds ++ res.1, res.2)

/-- Velocity lists of plan_trajectory: forward velocities bracketed by the
zero start/end sentinels, then the reverse deceleration-limit pass. -/
def trajVels (L jerk : ℝ) (trimmed : List ((ℝ × ℝ) × (ℝ × ℝ) × ℝ)) : List ℝ :=
  let dists := trimmed.map (fun t => t.2.2)
  let vecs := trimmed.map (fun t => t.2.1)
  let triples := (dists.tail.zip (vecs.zip vecs.tail)).map
    (fun p => (p.1, p.2.1, p.2.2))
  let fwd := forwardPass L jerk triples 0
  let vels := 0 :: fwd ++ [0]
  -- reverse pass over (dist into vertex i, velocity at vertex i-1), i = n..1
  let pairs := (dists.zip vels).reverse
  match vels.getLast? with
  | none => vels
  | some vfin => ((backGo L jerk pairs vfin).reverse) ++ [vfin]

/-- motion.plan_trajectory: filter the waypoint list, compute per-vertex
velocity limits by the forward and backward passes, and compile each leg.
Return value mirrors the source's three return shapes: (none, none) for
the abort paths (`return None, None`); (some list, none) where the source
returns a bare move list; and compute_segment's pair, with the data part
none exactly when its move list is none, for the 2-usable-segment
shortcut. -/
def plan_trajectory (fuel : ℕ) (nd : ND) (vs : List (ℝ × ℝ)) (xyz : PenPhys) :
    Option (List MoveCmd) × Option PenPhys :=
  if vs.length < 2 then (none, none)
  else if !nd.physXposDefined then (none, none)
  else if vs.length < 3 then
    match vs.get? 1 with
    | none => (none, none)
    | some p =>
      let r := compute_segment fuel nd (p.1, p.2, 0, 0, false) xyz
      (some (r.1.getD []), none)
  else
    match vs with
    | [] => (none, none)
    | v0 :: vtail =>
      let minDist : ℝ := if nd.resolution = 1 then 0.000348 else 0.000696
      let trimmed := trimPath minDist v0 vtail
      if trimmed.length + 1 < 2 then (none, none)
      else if trimmed.length + 1 < 3 then
        match trimmed.head? with
        | none => (none, none)
        | some t =>
          let r := compute_segment fuel nd (t.1.1, t.1.2, 0, 0, false) xyz
          (r.1, if r.1.isSome then some r.2 else none)
      else
        let L := penSpeedLimit nd xyz.z_up
        let jerk := penJerk nd xyz.z_up
        let vels := trajVels L jerk trimmed
        let segs := (trimmed.zip (vels.zip vels.tail)).map
          (fun p => (p.1.1, p.2.1, p.2.2))
        let r := runSegments fuel nd segs xyz
        (some r.1, none)

/-! Dripfeed executor (dripfeed.feed). -/

/-- A move list entry as dripfeed.feed dispatches on move[0]: pen
transitions, the three motion command kinds, and the malformed entries
(None or empty list) that the source skips. -/
inductive DripMove where
  | malformed
  | lower
  | lift
  | sm
  | t3
  | td
deriving DecidableEq

/-- Observable interactions of the dripfeed loop: the emergency SP,3
command, pen actuator transitions, and the dispatch of the motion command
at a given list index (covering its machine-or-preview send, distance
accounting and position update, which feed_sm / feed_t3 / feed_td all
perform together). -/
inductive FeedEvent where
  | sp3
  | penLower
  | penRaise
  | dispatch (idx : ℕ)
deriving DecidableEq

/-- The loop of dripfeed.feed.  stop gives the stop-status value that
pause_check (a collaborator call that may mutate it) leaves in place at
each check, indexed by loop iteration; already is the status value read
before the check (truthy means already stopped); xposDefined models the
`pen.phys.xpos is None` abort guard.  On a fresh stop the loop emits one
SP,3 and returns (the copies_to_plot reset is not an external interaction
and is not modelled). -/
def feedGo (stop : ℕ → ℤ) (xposDefined : Bool) :
    List DripMove → ℕ → ℤ → List FeedEvent
  | [], _, _ => []
  | m :: rest, k, already =>
    let now := stop k
    if now ≠ 0 ∧ already = 0 then [FeedEvent.sp3]
    else if !xposDefined then []
    else
      match m with
      | .malformed => feedGo stop xposDefined rest (k + 1) now
      | .lower => FeedEvent.penLower :: feedGo stop xposDefined rest (k + 1) now
      | .lift => FeedEvent.penRaise :: feedGo stop xposDefined rest (k + 1) now
      | .sm => FeedEvent.dispatch k :: feedGo stop xposDefined rest (k + 1) now
      | .t3 => FeedEvent.dispatch k :: feedGo stop xposDefined rest (k + 1) now
      | .td => FeedEvent.dispatch k :: feedGo stop xposDefined rest (k + 1) now

/-- dripfeed.feed: run the dripfeed loop from the initial stop status. -/
def feed (stop : ℕ → ℤ) (xposDefined : Bool) (moves : List DripMove)
    (stopped0 : ℤ) : List FeedEvent :=
  feedGo stop xposDefined moves 0 stopped0

/-! Pause-position accounting (plot_status.DripCache.queued_dist and its
call site in nextdraw.pause_check). -/

/-- plot_status.DripCache.queued_dist: query the controller's queued
command count (none models a USB communication error, which leaves the
distance untouched), subtract the sum of the newest queueCount cached
pen-down distances (the deque is newest first), and floor the result at
the previously recorded resume position. -/
def queued_dist (deque : List ℝ) (response : Option ℕ)
    (down_travel pause_dist : ℝ) : ℝ :=
  match response with
  | none => down_travel
  | some queue_count =>
    let offset := ((deque.take queue_count).sum : ℝ)
    max (down_travel - offset) pause_dist

/-- The queued_dist call site in nextdraw.pause_check (source lines 905 to
908): when a pause is being processed (stopped < 0 or the pause button
reported nonzero) and it is not the purely programmatic pause -1, apply
queued_dist to the recorded pen-down distance. -/
def pause_dist_adjust (stopped buttonPressed : ℤ) (deque : List ℝ)
    (response : Option ℕ) (down_travel pause_dist : ℝ) : ℝ :=
  if (stopped < 0 ∨ buttonPressed ≠ 0) ∧ stopped ≠ -1 then
    queued_dist deque response down_travel pause_dist
  else down_travel

/-! Homing (homing.HomingClass). -/

/-- One blocking-wait outcome of homing.HomingClass.block: interrupted by
the pause button (with an ES emergency stop issued), motion complete, or
the timeout branch (which marks homing failed). -/
inductive BlockResult where
  | paused
  | done
  | timedOut
deriving DecidableEq

/-- The polling loop of homing.HomingClass.block.  qg k is the status byte
of the k-th poll, button k the pause-button flag; timeLeft the remaining
time in ms.  hasTimeout records whether an explicit timeout_ms was passed:
the source decrements time_left only under `if timeout_ms is not None`.
The fuel makes the loop well-founded; none means the fuel ran out with the
loop still polling. -/
def blockGo (hasTimeout : Bool) (qg : ℕ → ℕ) (button : ℕ → Bool) :
    ℕ → ℕ → ℚ → Option BlockResult
  | 0, _, _ => none
  | n + 1, k, timeLeft =>
    if button k then some .paused
    else if qg k &&& 15 = 0 then some .done
    else if timeLeft ≤ 0 then some .timedOut
    else if timeLeft < 10 then blockGo hasTimeout qg button n (k + 1) 0
    else blockGo hasTimeout qg button n (k + 1)
      (if hasTimeout then timeLeft - 2 else timeLeft)

/-- homing.HomingClass.block with its default argument: time_left starts
at the explicit timeout, or 1000 ms when none is given. -/
def homing_block (timeout : Option ℚ) (qg : ℕ → ℕ) (button : ℕ → Bool)
    (fuel : ℕ) : Option BlockResult :=
  blockGo timeout.isSome qg button fuel 0 (timeout.getD 1000)

/-- Environment of one homing.HomingClass.find_home run.  The homing
stages rhm_homing / lhm_homing issue motion and query commands but never
touch controller variable 12 (verified against the source); for this
claim they are abstracted by whether they leave self.failed set. -/
structure HomingEnv where
  preview : Bool
  voltageWarn : Bool
  skipVoltageCheck : Bool
  voltageQueryOk : Bool
  portOk : Bool
  alreadyHomed : Bool
  rhmFails : Bool
  lhmFails : Bool
  stopped0 : ℤ

/-- Observable controller/status interactions of find_home and
mark_failed: variable writes (value, index), step-counter clears, and the
stop-status code recorded on failure. -/
inductive HEvent where
  | varWrite (val idx : ℤ)
  | clearSteps
  | setStopped (code : ℤ)
deriving DecidableEq

/-- homing.HomingClass.mark_failed: record a stop code (105 on a power
warning, 106 otherwise) when no other error is present, then mark the
machine as not homed (variable 12 := 0) whenever the connection is
usable. -/
def mark_failed (env : HomingEnv) : List HEvent :=
  (if env.stopped0 = 0 then
      [HEvent.setStopped (if env.voltageWarn then 105 else 106)]
    else [])
  ++ (if env.portOk then [HEvent.varWrite 0 12] else [])

/-- homing.HomingClass.find_home: the main homing control flow, returning
the success flag and the trace of variable writes / step clears / stop
codes.  Note the source's skip_voltage_check elif calls mark_failed and
returns False regardless of the voltage query result. -/
def find_home (env : HomingEnv) : Bool × List HEvent :=
  if env.preview then (true, [])
  else if env.voltageWarn then (false, mark_failed env)
  else if env.skipVoltageCheck then (false, mark_failed env)
  else if !env.portOk then (false, mark_failed env)
  else if env.alreadyHomed then (true, [])
  else if env.rhmFails then (false, mark_failed env)
  else if env.lhmFails then (false, HEvent.clearSteps :: mark_failed env)
  else (true, [HEvent.clearSteps, HEvent.clearSteps, HEvent.varWrite 1 12])

/-- Machine parameters used by the concrete developments: constant-speed
mode enabled, low resolution (2), step scale 1016, pen speeds 1 in/s,
accel option 100 so both pen jerks evaluate to 0.8 in/s^3, page bounds
[0,10] x [0,10] with tolerance 0.001. -/
def ndA : ND :=
  ⟨true, 1016, 1, 1, 100, 0.8, 0.8, 2, 0, 0, 10, 10, 0.001, true⟩

/-- As ndA but with constant-speed mode disabled. -/
def ndB : ND :=
  ⟨false, 1016, 1, 1, 100, 0.8, 0.8, 2, 0, 0, 10, 10, 0.001, true⟩

end

/-! General lemmas about the embedded primitives. -/

lemma isclose_zero_iff (t : ℝ) : isclose t 0 1e-9 0 ↔ t = 0 := by
  unfold isclose
  constructor
  · intro h
    have h0 : |t| ≤ 1e-9 * |t| := by
      have : max (1e-9 * max |t| |(0 : ℝ)|) 0 = 1e-9 * |t| := by
        rw [abs_zero, max_eq_left (abs_nonneg t),
          max_eq_left (by positivity)]
      rw [sub_zero] at h
      rw [this] at h
      exact h
    have := abs_nonneg t
    have : |t| = 0 := by nlinarith
    exact abs_eq_zero.mp this
  · intro h
    subst h
    simp


lemma scurve_plan_none_eval (a b j : ℝ) (ha : 0 ≤ a) (hb : 0 ≤ b) (hj : 0 < j) :
    scurve_plan a b j none none =
      some ((2 * a + |b - a|) * Real.sqrt (|b - a| / j)) := by
  have hjne : j ≠ 0 := ne_of_gt hj
  have habs : abs (|b| - a) = |b - a| := by rw [abs_of_nonneg hb]
  have hnn : 0 ≤ |b - a| / j := div_nonneg (abs_nonneg _) hj.le
  simp only [scurve_plan, abs_of_pos hj, if_neg hjne, habs, abs_of_nonneg ha]
  by_cases h0 : Real.sqrt (|b - a| / j) = 0
  · rw [if_pos]
    · have hz : |b - a| = 0 := by
        have h1 : |b - a| / j ≤ 0 := Real.sqrt_eq_zero'.mp h0
        have h2 : |b - a| / j = 0 := le_antisymm h1 hnn
        rcases div_eq_zero_iff.mp h2 with h | h
        · exact h
        · exact absurd h hjne
      rw [hz]
      simp
    · exact ⟨by simp, (isclose_zero_iff _).mpr h0⟩
  · rw [if_neg]
    · show some (2 * a * Real.sqrt (|b - a| / j) +
        j * Real.sqrt (|b - a| / j) * Real.sqrt (|b - a| / j) * Real.sqrt (|b - a| / j)) = _
      have hsq : Real.sqrt (|b - a| / j) * Real.sqrt (|b - a| / j) = |b - a| / j :=
        Real.mul_self_sqrt hnn
      have key : j * (Real.sqrt (|b - a| / j) * Real.sqrt (|b - a| / j)) = |b - a| := by
        rw [hsq]
        field_simp
      congr 1
      linear_combination Real.sqrt (|b - a| / j) * key
    · rintro ⟨-, hc⟩
      exact h0 ((isclose_zero_iff _).mp hc)

lemma scurve_plan_abs_args (a b j : ℝ) (d m : Option ℝ) :
    scurve_plan a b j d m = scurve_plan |a| |b| |j| d m := by
  simp only [scurve_plan, abs_abs]

lemma scurve_plan_none_getD_nonneg (a b j : ℝ) (hj : 0 < j) :
    0 ≤ (scurve_plan a b j none none).getD 0 := by
  rw [scurve_plan_abs_args]
  rw [scurve_plan_none_eval |a| |b| |j| (abs_nonneg a) (abs_nonneg b)
    (by rwa [abs_of_pos hj])]
  simp only [Option.getD_some]
  positivity

lemma striangleGo_unreachable (n : ℕ) : ∀ lb ub : ℝ,
    striangleGo 0 0 1 (-1) n lb ub = none := by
  induction n with
  | zero => intro lb ub; rfl
  | succ k ih =>
    intro lb ub
    simp only [striangleGo]
    have h1 : 0 ≤ (scurve_plan 0 ((lb + ub) / 2) 1 none none).getD 0 :=
      scurve_plan_none_getD_nonneg _ _ _ one_pos
    generalize htd : (scurve_plan 0 ((lb + ub) / 2) 1 none none).getD 0 +
      (scurve_plan 0 ((lb + ub) / 2) 1 none none).getD 0 = td
    have htd0 : 0 ≤ td := by rw [← htd]; linarith
    have hnc : ¬ isclose td (-1) 1e-9 1e-5 := by
      unfold isclose
      push_neg
      rw [abs_of_nonneg (by linarith : (0 : ℝ) ≤ td - (-1))]
      apply max_lt
      · have hm : max |td| |(-1 : ℝ)| ≤ td + 1 := by
          rw [abs_of_nonneg htd0]
          apply max_le (by linarith) (by rw [abs_neg, abs_one]; linarith)
        have e : (1e-9 : ℝ) = 1 / 1000000000 := by norm_num
        rw [e]
        linarith
      · have e : (1e-5 : ℝ) = 1 / 100000 := by norm_num
        rw [e]
        linarith
    rw [if_neg hnc, if_pos (by linarith : td > (-1 : ℝ))]
    exact ih lb ((lb + ub) / 2)

/-- Claim C6 (amended): striangle's bisection keeps no iteration cap (the
source loop is `while True`), so on an input whose target distance cannot
be matched, for example a negative dist with v_i = v_f = 0, v_max = 1 and
jerk = 1, the loop never exits: however much fuel the model is given, the
bisection is still running. -/
theorem striangle_no_cap_diverges : ∀ fuel : ℕ, striangle fuel 0 0 1 1 (-1) = none := by
  intro n
  simp only [striangle]
  exact striangleGo_unreachable n _ _

/-- Claim C6 counterexample: the claim asserts that the striangle
bisection terminates with a matching peak velocity, protected by a fixed
iteration cap; at the input (v_i, v_f, v_max, jerk, dist) =
(0, 0, 1, 1, -1), which satisfies the claim's hypotheses jerk > 0 and
max(v_i, v_f) <= v_max, it never returns at all. -/
theorem striangle_nonconvergence :
    ¬ ∃ (n : ℕ) (v : ℝ), striangle n 0 0 1 1 (-1) = some v := by
  rintro ⟨n, v, h⟩
  simp only [striangle] at h
  rw [striangleGo_unreachable n _ _] at h
  exact Option.noConfusion h

/-- Claim C5 (amended): for v_in <= v_max (the calling convention of the
source: the lower speed is always passed first), scurve_plan with dist =
None returns (v_in + v_max) * sqrt((v_max - v_in)/jerk), which is both the
distance to accelerate from v_in to v_max and the physical distance to
decelerate from v_max to v_in; the function is, however, not symmetric
under swapping its two velocity arguments (the swapped call applies the
same accelerate-from-v_in formula and returns a larger value). -/
theorem scurve_plan_accel_decel_dist (v1 v2 j : ℝ) (h0 : 0 ≤ v1) (h12 : v1 ≤ v2)
    (hj : 0 < j) :
    scurve_plan v1 v2 j none none = some ((v1 + v2) * Real.sqrt ((v2 - v1) / j)) := by
  rw [scurve_plan_none_eval v1 v2 j h0 (h0.trans h12) hj,
    abs_of_nonneg (sub_nonneg.mpr h12)]
  ring_nf

/-- Witness for C5's amended theorem at (v_in, v_max, jerk) = (1, 5, 4). -/
theorem scurve_plan_accel_decel_dist_w : scurve_plan 1 5 4 none none = some 6 := by
  have h := scurve_plan_accel_decel_dist 1 5 4 (by norm_num) (by norm_num) (by norm_num)
  rw [h, show ((5 : ℝ) - 1) / 4 = 1 by norm_num, Real.sqrt_one]
  norm_num

/-- Claim C5 counterexample: scurve_plan(1, 5, 4, None) = 6 but
scurve_plan(5, 1, 4, None) = 14, so the claimed symmetry
scurve_plan(v_in, v_max, jerk, None) = scurve_plan(v_max, v_in, jerk, None)
fails at (v_in, v_max, jerk) = (1, 5, 4). -/
theorem scurve_plan_not_symm :
    scurve_plan 1 5 4 none none ≠ scurve_plan 5 1 4 none none := by
  have e1 : |(5 : ℝ) - 1| = 4 := by rw [abs_of_nonneg (by norm_num)]; norm_num
  have e2 : |(1 : ℝ) - 5| = 4 := by rw [abs_of_nonpos (by norm_num)]; norm_num
  have h1 : scurve_plan 1 5 4 none none = some 6 := by
    rw [scurve_plan_none_eval 1 5 4 (by norm_num) (by norm_num) (by norm_num), e1,
      show (4 : ℝ) / 4 = 1 by norm_num, Real.sqrt_one]
    norm_num
  have h2 : scurve_plan 5 1 4 none none = some 14 := by
    rw [scurve_plan_none_eval 5 1 4 (by norm_num) (by norm_num) (by norm_num), e2,
      show (4 : ℝ) / 4 = 1 by norm_num, Real.sqrt_one]
    norm_num
  rw [h1, h2]
  intro h
  have := Option.some_inj.mp h
  norm_num at this

lemma feedGo_new_stop (stop : ℕ → ℤ) :
    ∀ (moves : List DripMove) (c n : ℕ),
      n < moves.length →
      (∀ j, j < n → stop (c + j) = 0) →
      stop (c + n) ≠ 0 →
      (feedGo stop true moves c 0).count FeedEvent.sp3 = 1 ∧
      ∀ i, c + n ≤ i → FeedEvent.dispatch i ∉ feedGo stop true moves c 0 := by
  intro moves
  induction moves with
  | nil => intro c n h; simp at h
  | cons m rest ih =>
    intro c n hn hpre hstop
    cases n with
    | zero =>
      simp only [feedGo]
      rw [if_pos ⟨by simpa using hstop, by trivial⟩]
      refine ⟨by simp [List.count_cons], ?_⟩
      intro i _
      simp
    | succ n' =>
      have h0 : stop c = 0 := by simpa using hpre 0 (Nat.succ_pos n')
      have hrec := ih (c + 1) n' (by simpa using Nat.lt_of_succ_lt_succ hn)
        (fun j hj => by
          have := hpre (j + 1) (Nat.succ_lt_succ hj)
          simpa [Nat.add_assoc, Nat.add_comm 1 j] using this)
        (by
          have e : c + 1 + n' = c + (n' + 1) := by omega
          rw [e]
          exact hstop)
      have e : c + 1 + n' = c + (n' + 1) := by omega
      rw [e] at hrec
      simp only [feedGo]
      rw [if_neg (by rintro ⟨hne, -⟩; exact hne h0), h0]
      cases m with
      | malformed =>
        simpa using hrec
      | lower =>
        refine ⟨by simpa [List.count_cons] using hrec.1, ?_⟩
        intro i hi hmem
        rcases List.mem_cons.mp hmem with h | h
        · simp at h
        · exact hrec.2 i (by omega) h
      | lift =>
        refine ⟨by simpa [List.count_cons] using hrec.1, ?_⟩
        intro i hi hmem
        rcases List.mem_cons.mp hmem with h | h
        · simp at h
        · exact hrec.2 i (by omega) h
      | sm =>
        refine ⟨by simpa [List.count_cons] using hrec.1, ?_⟩
        intro i hi hmem
        rcases List.mem_cons.mp hmem with h | h
        · have hic : i = c := by injection h
          omega
        · exact hrec.2 i (by omega) h
      | t3 =>
        refine ⟨by simpa [List.count_cons] using hrec.1, ?_⟩
        intro i hi hmem
        rcases List.mem_cons.mp hmem with h | h
        · have hic : i = c := by injection h
          omega
        · exact hrec.2 i (by omega) h
      | td =>
        refine ⟨by simpa [List.count_cons] using hrec.1, ?_⟩
        intro i hi hmem
        rcases List.mem_cons.mp hmem with h | h
        · have hic : i = c := by injection h
          omega
        · exact hrec.2 i (by omega) h

/-- Claim C2: in the dripfeed loop, if the stop status is 0 at every pause
check before command k and becomes nonzero at the check preceding command
k (a new stop condition), then feed issues exactly one emergency SP,3
command and returns, and no command at index k or later is dispatched to
the machine, preview, or distance accounting. -/
theorem feed_new_stop_halts (stop : ℕ → ℤ) (moves : List DripMove) (k : ℕ)
    (hk : k < moves.length) (hpre : ∀ j, j < k → stop j = 0) (hstop : stop k ≠ 0) :
    (feed stop true moves 0).count FeedEvent.sp3 = 1 ∧
    ∀ i, k ≤ i → FeedEvent.dispatch i ∉ feed stop true moves 0 := by
  have h := feedGo_new_stop stop moves 0 k hk
    (fun j hj => by simpa using hpre j hj) (by simpa using hstop)
  simpa [feed] using h

/-- Witness for C2: three commands, fresh stop at the check before index 2;
one SP,3 and nothing at index 2 or later dispatched. -/
theorem feed_new_stop_halts_w :
    (feed (fun j => if j = 2 then 102 else 0) true
        [DripMove.lower, DripMove.t3, DripMove.t3] 0).count FeedEvent.sp3 = 1 ∧
    ∀ i, 2 ≤ i → FeedEvent.dispatch i ∉
      feed (fun j => if j = 2 then 102 else 0) true
        [DripMove.lower, DripMove.t3, DripMove.t3] 0 := by
  exact feed_new_stop_halts _ _ 2 (by norm_num)
    (fun j hj => by rw [if_neg (by omega)]) (by norm_num)

/-- Claim C3: when a pause that is not the purely programmatic pause (-1)
is processed and the controller reports N queued commands, the recorded
pen-down travel distance is decreased by exactly the sum of the N newest
entries of the DripCache distance deque and the result is floored at the
previously recorded resume position; with 3 queued commands and cached
distances d1, d2, d3 (newest first) it decreases by d1 + d2 + d3. -/
theorem pause_queued_dist_subtracts (stopped button : ℤ) (d1 d2 d3 : ℝ)
    (rest : List ℝ) (down pd : ℝ)
    (hstop : stopped < 0) (hprog : stopped ≠ -1) :
    pause_dist_adjust stopped button (d1 :: d2 :: d3 :: rest) (some 3) down pd =
      max (down - (d1 + d2 + d3)) pd := by
  unfold pause_dist_adjust queued_dist
  rw [if_pos ⟨Or.inl hstop, hprog⟩]
  have ht : (List.take 3 (d1 :: d2 :: d3 :: rest)).sum = d1 + d2 + d3 := by
    simp [List.take, add_assoc]
  show (down - (List.take 3 (d1 :: d2 :: d3 :: rest)).sum) ⊔ pd =
    (down - (d1 + d2 + d3)) ⊔ pd
  rw [ht]

/-- Witness for C3: the spec scenario, cached distances [0.1, 0.2, 0.05]
and 3 queued commands: the recorded distance drops by exactly 0.35. -/
theorem pause_queued_dist_subtracts_w :
    pause_dist_adjust (-102) 0 [0.1, 0.2, 0.05] (some 3) 1 0 = 0.65 := by
  have h := pause_queued_dist_subtracts (-102) 0 0.1 0.2 0.05 [] 1 0
    (by norm_num) (by norm_num)
  rw [h, max_eq_left (by norm_num)]
  norm_num

lemma blockGo_stuck (qg : ℕ → ℕ) (button : ℕ → Bool)
    (hq : ∀ k, qg k &&& 15 ≠ 0) (hb : ∀ k, button k = false) :
    ∀ n k : ℕ, blockGo false qg button n k 1000 = none := by
  intro n
  induction n with
  | zero => intro k; rfl
  | succ m ih =>
    intro k
    simp only [blockGo, hb k]
    rw [if_neg (by simp), if_neg (hq k), if_neg (by norm_num), if_neg (by norm_num)]
    simpa using ih (k + 1)

/-- Claim C7 (the code contradicts it): with no explicit timeout the
homing block loop never decrements time_left (the source guards the
decrement with `if timeout_ms is not None`), so when the controller keeps
reporting motors in motion and the button is never pressed, the loop never
reaches the default-timeout branch: for any amount of fuel it is still
polling.  The claim (and the source's own docstring) says the default
1-second timeout bounds the wait. -/
theorem homing_block_default_timeout_dead (qg : ℕ → ℕ) (button : ℕ → Bool)
    (hq : ∀ k, qg k &&& 15 ≠ 0) (hb : ∀ k, button k = false) :
    ∀ fuel : ℕ, homing_block none qg button fuel = none := by
  intro n
  unfold homing_block
  simpa using blockGo_stuck qg button hq hb n 0

/-- Witness for C7's theorem: status byte constantly 15 (all motion bits
set), button never pressed, 100000 polls: still looping. -/
theorem homing_block_default_timeout_dead_w :
    homing_block none (fun _ => 15) (fun _ => false) 100000 = none :=
  homing_block_default_timeout_dead _ _ (fun _ => by decide) (fun _ => rfl) 100000

/-- Claim C8: find_home writes 1 to controller variable 12 exactly when
the homing stages run and all succeed (and then it returns True); whenever
it returns False, the variable is never written to 1, mark_failed has
written 0 to it (when the connection is usable), and a stop code (105 or
106) is recorded when no other error was present. -/
theorem find_home_homed_flag (env : HomingEnv) :
    (HEvent.varWrite 1 12 ∈ (find_home env).2 ↔
      (env.preview = false ∧ env.voltageWarn = false ∧ env.skipVoltageCheck = false ∧
       env.portOk = true ∧ env.alreadyHomed = false ∧ env.rhmFails = false ∧
       env.lhmFails = false))
    ∧ ((env.preview = false ∧ env.voltageWarn = false ∧ env.skipVoltageCheck = false ∧
       env.portOk = true ∧ env.alreadyHomed = false ∧ env.rhmFails = false ∧
       env.lhmFails = false) → (find_home env).1 = true)
    ∧ ((find_home env).1 = false →
        HEvent.varWrite 1 12 ∉ (find_home env).2 ∧
        (env.portOk = true → HEvent.varWrite 0 12 ∈ (find_home env).2) ∧
        (env.stopped0 = 0 →
          HEvent.setStopped 105 ∈ (find_home env).2 ∨
          HEvent.setStopped 106 ∈ (find_home env).2)) := by
  unfold find_home mark_failed
  cases hp : env.preview <;> cases hv : env.voltageWarn <;>
    cases hs : env.skipVoltageCheck <;> cases ho : env.portOk <;>
    cases hh : env.alreadyHomed <;> cases hr : env.rhmFails <;>
    cases hl : env.lhmFails <;>
    by_cases hz : env.stopped0 = 0 <;>
    simp_all

/-- Witness for C8 at a failing environment (right-hand-motor homing stage
fails, port usable): find_home returns False, writes 0 to variable 12, and
never writes 1. -/
theorem find_home_homed_flag_w :
    (find_home ⟨false, false, false, true, true, false, true, false, 0⟩).1 = false ∧
    HEvent.varWrite 0 12 ∈
      (find_home ⟨false, false, false, true, true, false, true, false, 0⟩).2 ∧
    HEvent.varWrite 1 12 ∉
      (find_home ⟨false, false, false, true, true, false, true, false, 0⟩).2 := by
  have h := find_home_homed_flag ⟨false, false, false, true, true, false, true, false, 0⟩
  exact ⟨rfl, (h.2.2 rfl).2.1 rfl, (h.2.2 rfl).1⟩

lemma cosFactor_mem (w1 w2 : ℝ × ℝ) (h1 : distance w1.1 w1.2 ≠ 0)
    (h2 : distance w2.1 w2.2 ≠ 0) :
    0 ≤ cosFactor w1 w2 ∧ cosFactor w1 w2 ≤ 1 := by
  obtain ⟨x1, y1⟩ := w1
  obtain ⟨x2, y2⟩ := w2
  simp only [distance] at h1 h2
  simp only [cosFactor, dotProductXY, distance]
  have hL1 : 0 < Real.sqrt (x1 ^ 2 + y1 ^ 2) :=
    lt_of_le_of_ne (Real.sqrt_nonneg _) (Ne.symm h1)
  have hL2 : 0 < Real.sqrt (x2 ^ 2 + y2 ^ 2) :=
    lt_of_le_of_ne (Real.sqrt_nonneg _) (Ne.symm h2)
  have hsq1 : Real.sqrt (x1 ^ 2 + y1 ^ 2) ^ 2 = x1 ^ 2 + y1 ^ 2 :=
    Real.sq_sqrt (by positivity)
  have hsq2 : Real.sqrt (x2 ^ 2 + y2 ^ 2) ^ 2 = x2 ^ 2 + y2 ^ 2 :=
    Real.sq_sqrt (by positivity)
  constructor
  · split_ifs with h
    · exact le_refl 0
    · push_neg at h
      exact h
  · split_ifs with h
    · norm_num
    · rw [div_mul_div_comm, div_mul_div_comm, div_add_div_same,
        div_le_one (by positivity)]
      nlinarith [sq_nonneg (x1 * y2 - x2 * y1),
        mul_pos hL1 hL2, sq_nonneg (x1 * x2 + y1 * y2)]

/-- Claim C4 (amended): in the forward pass's cornering computation, the
cosine of the angle between the incoming and outgoing unit vectors is
clamped to 0 beyond 90 degrees; the jerk-limited vertex speed is
multiplied by cos^4 when it exceeds 50 percent of speed_limit, by cos when
between 25 and 50 percent, and left unpenalized below 25 percent; and the
result is capped at 0.8 * speed_limit.  Consequently a 180-degree reversal
yields 0 only when the unclamped speed exceeds 25 percent of speed_limit
(below that the speed passes through unpenalized), and collinear waypoints
attain 0.8 * speed_limit only when the unclamped speed reaches that cap. -/
theorem cornering_penalty_spec (w1 w2 : ℝ × ℝ) (vc L : ℝ) (hv : 0 ≤ vc)
    (h1 : distance w1.1 w1.2 ≠ 0) (h2 : distance w2.1 w2.2 ≠ 0) :
    corneringSpeed w1 w2 vc L = corneringSpec (cosFactor w1 w2) vc L := by
  have hc := cosFactor_mem w1 w2 h1 h2
  show min (if vc > L * 0.5 then min vc (vc * cosFactor w1 w2 ^ 4)
        else if vc > L * 0.25 then min vc (vc * cosFactor w1 w2) else vc)
      (L * 0.8) = _
  unfold corneringSpec
  congr 1
  split_ifs with hA hB
  · refine min_eq_right ?_
    have h4 : cosFactor w1 w2 ^ 4 ≤ 1 := pow_le_one₀ hc.1 hc.2
    nlinarith
  · exact min_eq_right (by nlinarith [hc.1, hc.2])
  · rfl

/-- Witness for C4's amended theorem: a 90-degree corner at full speed. -/
theorem cornering_penalty_spec_w :
    corneringSpeed (1, 0) (0, 1) 1 1 = corneringSpec (cosFactor (1, 0) (0, 1)) 1 1 := by
  apply cornering_penalty_spec
  · norm_num
  · show distance 1 0 ≠ 0
    unfold distance
    rw [show ((1 : ℝ) ^ 2 + 0 ^ 2) = 1 by norm_num, Real.sqrt_one]
    norm_num
  · show distance 0 1 ≠ 0
    unfold distance
    rw [show ((0 : ℝ) ^ 2 + 1 ^ 2) = 1 by norm_num, Real.sqrt_one]
    norm_num

/-- Claim C4 counterexample: a 180-degree reversal with unclamped vertex
speed 0.1 and speed_limit 1 (below the 25 percent tier) yields vertex
speed 0.1, not 0 as the claim asserts for every reversal. -/
theorem cornering_reversal_not_zero :
    corneringSpeed (1, 0) (-1, 0) (1 / 10) 1 = 1 / 10 ∧ ((1 : ℝ) / 10) ≠ 0 := by
  constructor
  · simp only [corneringSpeed, dotProductXY, distance]
    rw [show ((1 : ℝ) ^ 2 + 0 ^ 2) = 1 by norm_num,
      show ((-1 : ℝ) ^ 2 + 0 ^ 2) = 1 by norm_num, Real.sqrt_one]
    norm_num
  · norm_num

lemma sqrt_le_of_sq (a b : ℝ) (hb : 0 ≤ b) (h : a ≤ b ^ 2) : Real.sqrt a ≤ b := by
  calc Real.sqrt a ≤ Real.sqrt (b ^ 2) := Real.sqrt_le_sqrt h
    _ = b := Real.sqrt_sq hb

lemma le_sqrt_of_sq (a b : ℝ) (ha : 0 ≤ a) (h : a ^ 2 ≤ b) : a ≤ Real.sqrt b := by
  calc a = Real.sqrt (a ^ 2) := (Real.sqrt_sq ha).symm
    _ ≤ Real.sqrt b := Real.sqrt_le_sqrt h

lemma sqrt2_ge_one : (1 : ℝ) ≤ Real.sqrt 2 :=
  le_sqrt_of_sq 1 2 (by norm_num) (by norm_num)

lemma sqrt2_le_threehalf : Real.sqrt 2 ≤ 1.5 :=
  sqrt_le_of_sq 2 1.5 (by norm_num) (by norm_num)

lemma sqrt2_lb : (1.4142135623 : ℝ) ≤ Real.sqrt 2 :=
  le_sqrt_of_sq _ 2 (by norm_num) (by norm_num)

lemma sqrt2_ub : Real.sqrt 2 ≤ 1.4142135624 :=
  sqrt_le_of_sq 2 _ (by norm_num) (by norm_num)

lemma distance_diag (a : ℝ) (ha : 0 ≤ a) : distance a a = Real.sqrt 2 * a := by
  rw [distance, show a ^ 2 + a ^ 2 = 2 * a ^ 2 by ring,
    Real.sqrt_mul (by norm_num) (a ^ 2), Real.sqrt_sq ha]

lemma distance_axis (a : ℝ) : distance a 0 = |a| := by
  rw [distance, show a ^ 2 + (0 : ℝ) ^ 2 = a ^ 2 by ring, Real.sqrt_sq_eq_abs]

lemma scurveJerkGo_low (d L0 : ℝ) (hd : 0 < d) (hL0 : 0 < L0)
    (hdl : d ≤ 0.002 * L0) :
    ∀ (n : ℕ) (t lb ub : ℝ), L0 ≤ lb → lb ≤ t → t ≤ ub →
      scurveJerkGo 0 1 d n t lb ub = none := by
  intro n
  induction n with
  | zero => intro t lb ub _ _ _; rfl
  | succ m ih =>
    intro t lb ub hlb hlt htu
    have ht0 : 0 < t := lt_of_lt_of_le hL0 (le_trans hlb hlt)
    have hv : (0 : ℝ) + |d - 2 * 0 * t| / (t * t * t) * t * t = d / t := by
      rw [show (2 : ℝ) * 0 * t = 0 by ring, sub_zero, abs_of_pos hd]
      field_simp
      ring
    have hdt : d / t ≤ 0.002 := by
      rw [div_le_iff ht0]
      nlinarith
    have hdt0 : 0 < d / t := div_pos hd ht0
    simp only [scurveJerkGo]
    rw [hv]
    have hnc : ¬ isclose (d / t) 1 1e-9 1e-6 := by
      unfold isclose
      push_neg
      rw [abs_of_nonpos (by linarith : d / t - 1 ≤ 0), abs_of_pos hdt0, abs_one,
        max_eq_right (by linarith : d / t ≤ 1)]
      apply max_lt
      · have e : (1e-9 : ℝ) = 1 / 1000000000 := by norm_num
        rw [e]
        linarith
      · have e : (1e-6 : ℝ) = 1 / 1000000 := by norm_num
        rw [e]
        linarith
    rw [if_neg hnc, if_neg (by linarith : ¬ d / t > 1)]
    exact ih ((t + ub) / 2) t ub (le_trans hlb hlt) (by linarith) (by linarith)

lemma scurve_jerk_0_1_none (d : ℝ) (hd : 0 < d)
    (hsmall : max 0.003 (d / (2 * 0.001)) ≤ 0.9) :
    scurve_jerk 0 1 d 0.8 = none := by
  unfold scurve_jerk
  dsimp only
  have e1 : min (0 : ℝ) 1 = 0 := min_eq_left (by norm_num)
  have e2 : max (0 : ℝ) 1 = 1 := max_eq_right (by norm_num)
  rw [e1, e2, if_pos rfl,
    show ((1 : ℝ) - 0) / (0.8 * 1.25) = 1 by norm_num, Real.sqrt_one]
  have hL0 : (0 : ℝ) < max 0.003 (d / (2 * 0.001)) :=
    lt_of_lt_of_le (by norm_num) (le_max_left _ _)
  apply scurveJerkGo_low d (max 0.003 (d / (2 * 0.001))) hd hL0
  · have h2 : d / (2 * 0.001) ≤ max 0.003 (d / (2 * 0.001)) := le_max_right _ _
    have h3 : d / (2 * 0.001) = 500 * d := by
      rw [show (2 : ℝ) * 0.001 = 1 / 500 by norm_num, div_eq_mul_inv, inv_div, div_one]
      ring
    rw [h3] at h2 ⊢
    linarith
  · exact le_refl _
  · linarith
  · linarith

lemma scurve_jerk2_0_1_none (d : ℝ) (hd : 0 < d)
    (hsmall : max 0.002 (d / (2 * 0.001)) ≤ 0.8) :
    scurve_jerk2 0 1 d 0.8 = none := by
  unfold scurve_jerk2
  dsimp only
  have e1 : min (0 : ℝ) 1 = 0 := min_eq_left (by norm_num)
  have e2 : max (0 : ℝ) 1 = 1 := max_eq_right (by norm_num)
  rw [e1, e2, if_pos rfl]
  have hU : (0.9 : ℝ) ≤ Real.sqrt (((1 : ℝ) - 0) / (0.8 * 1.3)) := by
    apply le_sqrt_of_sq _ _ (by norm_num)
    norm_num
  have hU2 : Real.sqrt (((1 : ℝ) - 0) / (0.8 * 1.3)) ≤ 1 := by
    apply sqrt_le_of_sq _ _ (by norm_num)
    norm_num
  have hL0 : (0 : ℝ) < max 0.002 (d / (2 * 0.001)) :=
    lt_of_lt_of_le (by norm_num) (le_max_left _ _)
  apply scurveJerkGo_low d (max 0.002 (d / (2 * 0.001))) hd hL0
  · have h2 : d / (2 * 0.001) ≤ max 0.002 (d / (2 * 0.001)) := le_max_right _ _
    have h3 : d / (2 * 0.001) = 500 * d := by
      rw [show (2 : ℝ) * 0.001 = 1 / 500 by norm_num, div_eq_mul_inv, inv_div, div_one]
      ring
    rw [h3] at h2 ⊢
    linarith
  · exact le_refl _
  · linarith
  · linarith

lemma not_isclose_0_1 (atol : ℝ) (h : atol < 1) : ¬ isclose (0 : ℝ) 1 1e-9 atol := by
  unfold isclose
  rw [show (0 : ℝ) - 1 = -1 by norm_num, abs_neg, abs_one, abs_zero,
    max_eq_right (by norm_num : (0 : ℝ) ≤ 1), mul_one]
  intro hc
  rcases le_max_iff.mp hc with h1 | h1
  · norm_num at h1
  · linarith

lemma sqrt125_ge_one : (1 : ℝ) ≤ Real.sqrt 1.25 :=
  le_sqrt_of_sq 1 1.25 (by norm_num) (by norm_num)

lemma sqrt125_le : Real.sqrt 1.25 ≤ 1.2 :=
  sqrt_le_of_sq 1.25 1.2 (by norm_num) (by norm_num)

lemma scurve_plan_0_1 : scurve_plan 0 1 0.8 none none = some (Real.sqrt 1.25) := by
  rw [scurve_plan_none_eval 0 1 0.8 (by norm_num) (by norm_num) (by norm_num),
    show ((1 : ℝ) - 0) = 1 by norm_num, abs_one,
    show (1 : ℝ) / 0.8 = 1.25 by norm_num]
  norm_num

lemma scurve_plan_1_1 : scurve_plan 1 1 0.8 none none = some 0 := by
  rw [scurve_plan_none_eval 1 1 0.8 (by norm_num) (by norm_num) (by norm_num),
    show ((1 : ℝ) - 1) = 0 by norm_num, abs_zero]
  rw [zero_div, Real.sqrt_zero]
  norm_num

lemma seg_case_C9 (d : ℝ) (hd0 : 0 < d) (hd1 : d ≤ 0.001) :
    seg_case false 0 1 1 0.8 d = 0 := by
  unfold seg_case
  have hc00 : isclose (0 : ℝ) 0 1e-9 0 := (isclose_zero_iff 0).mpr rfl
  have h01a : ¬ isclose (0 : ℝ) 1 1e-9 0 := not_isclose_0_1 0 (by norm_num)
  have h01b : ¬ isclose (0 : ℝ) 1 1e-9 1e-2 := not_isclose_0_1 1e-2 (by norm_num)
  have h01c : ¬ isclose (0 : ℝ) 1 1e-9 1e-3 := not_isclose_0_1 1e-3 (by norm_num)
  have hsvm : ¬ (d ≥ Real.sqrt 1.25 + 0) := by
    rw [add_zero]
    push_neg
    linarith [sqrt125_ge_one]
  have hsse1 : ¬ (d > Real.sqrt 1.25) := by
    push_neg
    linarith [sqrt125_ge_one]
  have hsse2 : ¬ isclose d (Real.sqrt 1.25) 1e-9 1e-3 := by
    unfold isclose
    rw [abs_of_nonpos (by linarith [sqrt125_ge_one] : d - Real.sqrt 1.25 ≤ 0),
      abs_of_pos hd0,
      abs_of_nonneg (le_trans (by norm_num) sqrt125_ge_one),
      max_eq_right (by linarith [sqrt125_ge_one] : d ≤ Real.sqrt 1.25),
      max_eq_right (by nlinarith [sqrt125_le] : 1e-9 * Real.sqrt 1.25 ≤ 1e-3)]
    push_neg
    linarith [sqrt125_ge_one]
  simp only [hc00, if_true, h01a, h01b, h01c, scurve_plan_0_1, scurve_plan_1_1,
    Option.getD_some, hsvm, hsse1, hsse2, if_false, Bool.false_eq_true, false_or,
    false_and, and_false, if_pos (by norm_num : (0 : ℝ) ≤ 1)]

lemma div_2em3 (d : ℝ) : d / (2 * 0.001) = 500 * d := by
  rw [show (2 : ℝ) * 0.001 = 1 / 500 by norm_num, div_eq_mul_inv, inv_div, div_one]
  ring

lemma msteps1_C9 : msteps1 ndB true (1 / 2032) (1 / 2032) 0 0 = 1 := by
  show round ((1016 : ℝ) * ((1 / 2032 - 0) + (1 / 2032 - 0))) = 1
  rw [show (1016 : ℝ) * ((1 / 2032 - 0) + (1 / 2032 - 0)) = 1 by norm_num]
  exact round_one

lemma msteps2_C9 : msteps2 ndB true (1 / 2032) (1 / 2032) 0 0 = 0 := by
  show round ((1016 : ℝ) * ((1 / 2032 - 0) - (1 / 2032 - 0))) = 0
  rw [show (1016 : ℝ) * ((1 / 2032 - 0) - (1 / 2032 - 0)) = 0 by norm_num]
  exact round_zero

lemma distInch_C9 : distInch ndB 1 0 = Real.sqrt 2 * (1 / 2032) := by
  have e : distInch ndB 1 0 = distance (1 / 2032) (1 / 2032) := by
    unfold distInch ndB
    norm_num
  rw [e, distance_diag _ (by norm_num)]

/-- Claim C9: when a segment request reaches the reduced-jerk fallback
(case 0) and both scurve_jerk and the more lenient scurve_jerk2 return no
solution, compute_segment returns no commands (the source's
`return None, None`) without raising, and the caller's PenPosition record
(xpos, ypos, accumulators) is left exactly as it was. -/
theorem case0_fallback_returns_none
    (fuel : ℕ) (nd : ND) (xd yd vi0 vf0 : ℝ) (ig : Bool) (xyz : PenPhys)
    (fx fy vi vf L jerk dist : ℝ) (cm : Bool)
    (hx : xyz.xpos = some fx) (hy : xyz.ypos = some fy)
    (hcm : (nd.const_speed && !xyz.z_up) = cm)
    (hL : penSpeedLimit nd xyz.z_up = L)
    (hJ : penJerk nd xyz.z_up = jerk)
    (hvi : (if cm then L else min vi0 L) = vi)
    (hvf : (if cm then L else min vf0 L) = vf)
    (hdeg : ¬ (msteps1 nd ig xd yd fx fy = 0 ∧ msteps2 nd ig xd yd fx fy = 0))
    (hdist : distInch nd (msteps1 nd ig xd yd fx fy) (msteps2 nd ig xd yd fx fy) = dist)
    (hcase : seg_case cm vi vf L jerk dist = 0)
    (hj1 : scurve_jerk vi vf dist jerk = none)
    (hj2 : scurve_jerk2 vi vf dist jerk = none) :
    compute_segment fuel nd (xd, yd, vi0, vf0, ig) xyz = (none, xyz) := by
  have hb : build_subsegs fuel cm vi vf L jerk dist = none := by
    unfold build_subsegs
    rw [hcase]
    norm_num
    unfold case0_subsegs
    rw [hj1, hj2]
  unfold compute_segment
  rw [hx, hy]
  dsimp only
  rw [if_neg hdeg, hcm, hL, hJ, hdist, hvi, hvf, hb]

theorem case0_fallback_returns_none_w :
    compute_segment 0 ndB (1 / 2032, 1 / 2032, 0, 1, true) ⟨some 0, some 0, false, 0, 0⟩ =
      (none, ⟨some 0, some 0, false, 0, 0⟩) := by
  have hd0 : (0 : ℝ) < Real.sqrt 2 * (1 / 2032) := by positivity
  have hd1 : Real.sqrt 2 * (1 / 2032) ≤ 0.001 := by
    have := sqrt2_le_threehalf
    nlinarith
  have hsmall1 : max 0.003 (Real.sqrt 2 * (1 / 2032) / (2 * 0.001)) ≤ 0.9 := by
    rw [div_2em3]
    apply max_le (by norm_num)
    nlinarith
  have hsmall2 : max 0.002 (Real.sqrt 2 * (1 / 2032) / (2 * 0.001)) ≤ 0.8 := by
    rw [div_2em3]
    apply max_le (by norm_num)
    nlinarith
  refine case0_fallback_returns_none 0 ndB (1 / 2032) (1 / 2032) 0 1 true
    ⟨some 0, some 0, false, 0, 0⟩ 0 0 0 1 1 0.8 (Real.sqrt 2 * (1 / 2032)) false
    rfl rfl rfl ?_ ?_ ?_ ?_ ?_ ?_ ?_ ?_ ?_
  · unfold penSpeedLimit ndB
    norm_num
  · unfold penJerk calc_jerk ndB
    norm_num
  · norm_num
  · norm_num
  · rw [msteps1_C9, msteps2_C9]
    intro h
    exact absurd h.1 one_ne_zero
  · rw [msteps1_C9, msteps2_C9, distInch_C9]
  · exact seg_case_C9 _ hd0 hd1
  · exact scurve_jerk_0_1_none _ hd0 hsmall1
  · exact scurve_jerk2_0_1_none _ hd0 hsmall2

lemma velISR_zero (v S : ℝ) : velISR v S 0 = 0 := by
  unfold velISR
  rw [mul_zero, round_zero]

lemma move_dist_t3_const (T R a : ℤ) :
    move_dist_t3 T R 0 0 a = ((a + R * T) / 2147483648, (a + R * T) % 2147483648) := by
  unfold move_dist_t3
  simp

lemma move_dist_t3_zrate (T a : ℤ) :
    move_dist_t3 T 0 0 0 a = (a / 2147483648, a % 2147483648) := by
  unfold move_dist_t3
  simp

lemma velISR_R : velISR 1 1016 (Real.sqrt 2) = 123423700 := by
  have h1 := sqrt2_lb
  have h2 := sqrt2_ub
  unfold velISR
  rw [round_eq]
  apply Int.floor_eq_iff.mpr
  constructor
  · push_cast
    nlinarith
  · push_cast
    nlinarith

lemma compute_subsegment_const (L S segLen jerk : ℝ) (s R T a1 : ℤ) (zup : Bool) (fx fy : ℝ)
    (hs : 0 < s)
    (hR : velISR L S (Real.sqrt 2) = R)
    (hT : ⌈|(s : ℝ) / ((R : ℝ) / 2147483648)|⌉ = T)
    (hR0 : 0 < R) :
    ∃ (d : ℝ) (q : LivePos),
      compute_subsegment_cmds L s 0 S L segLen [⟨3, jerk, none⟩] ⟨fx, fy, zup, a1, 0⟩
        = ([MoveCmd.t3 ⟨T, R, 0, 0, 0, 0, 0⟩
             ((a1 + R * T) / 2147483648) 0 d q], q) := by
  have hsR : (0 : ℝ) < (s : ℝ) := by exact_mod_cast hs
  have hRR : (0 : ℝ) < (R : ℝ) := by exact_mod_cast hR0
  have habs : |(s : ℝ) / ((R : ℝ) / 2147483648)| = (s : ℝ) * 2147483648 / (R : ℝ) := by
    rw [div_div_eq_mul_div, abs_of_pos (by positivity)]
  have h1 : (s : ℝ) * 2147483648 / (R : ℝ) ≤ (T : ℝ) := by
    rw [← hT, habs]
    exact Int.le_ceil _
  have h2 : (T : ℝ) < (s : ℝ) * 2147483648 / (R : ℝ) + 1 := by
    rw [← hT, habs]
    exact Int.ceil_lt_add_one _
  have hA : (s : ℝ) * 2147483648 ≤ (R : ℝ) * (T : ℝ) := by
    rw [div_le_iff₀ hRR] at h1
    linarith
  have hBkey := mul_lt_mul_of_pos_right h2 hRR
  rw [add_mul, div_mul_cancel₀ _ (ne_of_gt hRR), one_mul] at hBkey
  have haZ : s * 2147483648 ≤ R * T := by exact_mod_cast hA
  have hbZ : R * T < s * 2147483648 + R := by
    have : (R : ℝ) * (T : ℝ) < (s : ℝ) * 2147483648 + (R : ℝ) := by linarith
    exact_mod_cast this
  have hT0 : ¬ T = 0 := by
    intro h
    rw [h, mul_zero] at haZ
    omega
  have htestpos : 0 < (R * T) / 2147483648 := by
    obtain ⟨a, ha⟩ : ∃ a, R * T = a := ⟨_, rfl⟩
    rw [ha] at haZ
    rw [ha]
    omega
  have hsne : (s : ℝ) ≠ 0 := ne_of_gt hsR
  unfold compute_subsegment_cmds
  dsimp only
  rw [show ((0 : ℤ) : ℝ) = (0 : ℝ) from Int.cast_zero]
  rw [distance_axis, abs_of_pos hsR]
  rw [mul_div_assoc, div_self hsne, mul_one]
  rw [mul_zero, zero_div]
  rw [hR, velISR_zero]
  simp only [emitGo]
  simp only [ite_self]
  rw [if_neg (by norm_num : ¬ ((3 : ℕ) = 1)), if_neg (by norm_num : ¬ ((3 : ℕ) = 2))]
  rw [sub_zero, sub_zero]
  rw [hR, velISR_zero]
  have hseg1 : (t3_seg_data ⟨T, R, 0, 0, 0, 0, 0⟩ ⟨fx, fy, zup, a1, 0⟩ S).steps1
      = (a1 + R * T) / 2147483648 := by
    unfold t3_seg_data
    dsimp only
    rw [move_dist_t3_const]
  have hseg2 : (t3_seg_data ⟨T, R, 0, 0, 0, 0, 0⟩ ⟨fx, fy, zup, a1, 0⟩ S).steps2 = 0 := by
    unfold t3_seg_data
    dsimp only
    rw [move_dist_t3_zrate]
    exact Int.zero_ediv _
  have hemit : emitConst S s 0 R 0 ⟨fx, fy, zup, a1, 0⟩
      = some (MoveCmd.t3 ⟨T, R, 0, 0, 0, 0, 0⟩ ((a1 + R * T) / 2147483648) 0
               (t3_seg_data ⟨T, R, 0, 0, 0, 0, 0⟩ ⟨fx, fy, zup, a1, 0⟩ S).dist
               (t3_seg_data ⟨T, R, 0, 0, 0, 0, 0⟩ ⟨fx, fy, zup, a1, 0⟩ S).pos,
              t3_seg_data ⟨T, R, 0, 0, 0, 0, 0⟩ ⟨fx, fy, zup, a1, 0⟩ S) := by
    unfold emitConst
    dsimp only
    rw [if_pos hR0.ne']
    rw [hT]
    rw [if_neg (by norm_num : ¬ ((0 : ℤ) ≠ 0))]
    rw [move_dist_t3_const, move_dist_t3_zrate]
    dsimp only
    rw [zero_add]
    have hcond : |(R * T) / 2147483648| > |(0 : ℤ) / 2147483648| := by
      rw [Int.zero_ediv, abs_zero, abs_of_pos htestpos]
      exact htestpos
    rw [if_pos hcond]
    rw [if_neg hT0]
    rw [hseg1, hseg2]
  rw [hemit]
  exact ⟨_, _, rfl⟩

lemma compute_segment_const_axis1
    (fuel : ℕ) (nd : ND) (xd yd vi0 vf0 : ℝ) (ig : Bool) (xyz : PenPhys)
    (fx fy : ℝ) (s R T : ℤ)
    (hx : xyz.xpos = some fx) (hy : xyz.ypos = some fy) (ha2 : xyz.accum2 = 0)
    (hcm : (nd.const_speed && !xyz.z_up) = true)
    (hs1 : msteps1 nd ig xd yd fx fy = s) (hs2 : msteps2 nd ig xd yd fx fy = 0)
    (hs : 0 < s)
    (hR : velISR (penSpeedLimit nd xyz.z_up) nd.step_scale (Real.sqrt 2) = R)
    (hT : ⌈|(s : ℝ) / ((R : ℝ) / 2147483648)|⌉ = T)
    (hR0 : 0 < R) :
    ∃ (d : ℝ) (q : LivePos),
      (compute_segment fuel nd (xd, yd, vi0, vf0, ig) xyz).1 =
        some [MoveCmd.t3 ⟨T, R, 0, 0, 0, 0, 0⟩
          ((xyz.accum1 + R * T) / 2147483648) 0 d q] := by
  have hc : seg_case true (penSpeedLimit nd xyz.z_up) (penSpeedLimit nd xyz.z_up)
      (penSpeedLimit nd xyz.z_up) (penJerk nd xyz.z_up) (distInch nd s 0) = 3 := by
    unfold seg_case
    dsimp only
    rw [if_pos (Or.inl rfl)]
  have hb : build_subsegs fuel true (penSpeedLimit nd xyz.z_up) (penSpeedLimit nd xyz.z_up)
      (penSpeedLimit nd xyz.z_up) (penJerk nd xyz.z_up) (distInch nd s 0)
      = some [⟨3, penJerk nd xyz.z_up, none⟩] := by
    unfold build_subsegs
    rw [hc]
    norm_num
  obtain ⟨d, q, hq⟩ := compute_subsegment_const (penSpeedLimit nd xyz.z_up) nd.step_scale
    (distInch nd s 0) (penJerk nd xyz.z_up) s R T xyz.accum1 xyz.z_up fx fy hs hR hT hR0
  refine ⟨d, q, ?_⟩
  unfold compute_segment
  rw [hx, hy]
  dsimp only
  rw [hcm, hs1, hs2]
  rw [if_neg (by intro h; exact absurd h.1 hs.ne')]
  rw [if_pos rfl, if_pos rfl]
  rw [hb]
  dsimp only
  rw [ha2, hq]

lemma ceil_steps_sandwich (s R T : ℤ) (hR0 : 0 < R)
    (hT : ⌈|(s : ℝ) / ((R : ℝ) / 2147483648)|⌉ = T) (hpos : (0 : ℝ) < (s : ℝ)) :
    s * 2147483648 ≤ R * T ∧ R * T < s * 2147483648 + R := by
  have hRR : (0 : ℝ) < (R : ℝ) := by exact_mod_cast hR0
  have habs : |(s : ℝ) / ((R : ℝ) / 2147483648)| = (s : ℝ) * 2147483648 / (R : ℝ) := by
    rw [div_div_eq_mul_div, abs_of_pos (by positivity)]
  have h1 : (s : ℝ) * 2147483648 / (R : ℝ) ≤ (T : ℝ) := by
    rw [← hT, habs]
    exact Int.le_ceil _
  have h2 : (T : ℝ) < (s : ℝ) * 2147483648 / (R : ℝ) + 1 := by
    rw [← hT, habs]
    exact Int.ceil_lt_add_one _
  have hA : (s : ℝ) * 2147483648 ≤ (R : ℝ) * (T : ℝ) := by
    rw [div_le_iff₀ hRR] at h1
    linarith
  have hBkey := mul_lt_mul_of_pos_right h2 hRR
  rw [add_mul, div_mul_cancel₀ _ (ne_of_gt hRR), one_mul] at hBkey
  constructor
  · exact_mod_cast hA
  · have : (R : ℝ) * (T : ℝ) < (s : ℝ) * 2147483648 + (R : ℝ) := by linarith
    exact_mod_cast this

lemma msteps1_508 : msteps1 ndA true (1 / 508) (1 / 508) 0 0 = 4 := by
  show round ((1016 : ℝ) * ((1 / 508 - 0) + (1 / 508 - 0))) = 4
  rw [show (1016 : ℝ) * ((1 / 508 - 0) + (1 / 508 - 0)) = ((4 : ℤ) : ℝ) by norm_num]
  exact round_intCast 4

lemma msteps2_508 : msteps2 ndA true (1 / 508) (1 / 508) 0 0 = 0 := by
  show round ((1016 : ℝ) * ((1 / 508 - 0) - (1 / 508 - 0))) = 0
  rw [show (1016 : ℝ) * ((1 / 508 - 0) - (1 / 508 - 0)) = 0 by norm_num]
  exact round_zero

lemma ceil_T_508 : ⌈|((4 : ℤ) : ℝ) / (((123423700 : ℤ) : ℝ) / 2147483648)|⌉ = (70 : ℤ) := by
  have habs : |((4 : ℤ) : ℝ) / (((123423700 : ℤ) : ℝ) / 2147483648)|
      = (8589934592 : ℝ) / 123423700 := by
    push_cast
    rw [abs_of_pos (by positivity), div_div_eq_mul_div]
    norm_num
  rw [habs]
  apply Int.ceil_eq_iff.mpr
  constructor
  · norm_num
  · norm_num

/-- Claim C1 (amended): the step round-trip holds when the entering sub-step
accumulators are zero — shown here for the const-speed emission path on a
native-axis-1-aligned segment: compute_segment emits a non-empty command list
whose per-axis step sums equal the rounded step deltas (motor_steps_1,
motor_steps_2) computed directly from the request.  With a nonzero entering
accumulator the firmware carry makes the emitted steps differ from the
rounded delta (see the accompanying counterexample), so the original
unconditional claim is false. -/
theorem steps_roundtrip_zero_accum
    (fuel : ℕ) (nd : ND) (xd yd vi0 vf0 : ℝ) (ig : Bool) (xyz : PenPhys)
    (fx fy : ℝ) (s R T : ℤ)
    (hx : xyz.xpos = some fx) (hy : xyz.ypos = some fy)
    (ha1 : xyz.accum1 = 0) (ha2 : xyz.accum2 = 0)
    (hcm : (nd.const_speed && !xyz.z_up) = true)
    (hs1 : msteps1 nd ig xd yd fx fy = s) (hs2 : msteps2 nd ig xd yd fx fy = 0)
    (hs : 0 < s)
    (hR : velISR (penSpeedLimit nd xyz.z_up) nd.step_scale (Real.sqrt 2) = R)
    (hT : ⌈|(s : ℝ) / ((R : ℝ) / 2147483648)|⌉ = T)
    (hR0 : 0 < R) (hR31 : R ≤ 2147483648) :
    ∃ cmds : List MoveCmd,
      (compute_segment fuel nd (xd, yd, vi0, vf0, ig) xyz).1 = some cmds ∧
      cmds ≠ [] ∧
      stepsSum1 cmds = msteps1 nd ig xd yd fx fy ∧
      stepsSum2 cmds = msteps2 nd ig xd yd fx fy := by
  obtain ⟨d, q, hq⟩ := compute_segment_const_axis1 fuel nd xd yd vi0 vf0 ig xyz fx fy s R T
    hx hy ha2 hcm hs1 hs2 hs hR hT hR0
  refine ⟨_, hq, by simp, ?_, ?_⟩
  · rw [hs1, ha1]
    have hsum : stepsSum1 [MoveCmd.t3 ⟨T, R, 0, 0, 0, 0, 0⟩
        ((0 + R * T) / 2147483648) 0 d q] = (0 + R * T) / 2147483648 := by
      simp [stepsSum1, cmdSteps1]
    rw [hsum, zero_add]
    obtain ⟨h1, h2⟩ := ceil_steps_sandwich s R T hR0 hT (by exact_mod_cast hs)
    obtain ⟨a, ha⟩ : ∃ a, R * T = a := ⟨_, rfl⟩
    rw [ha] at h1 h2 ⊢
    omega
  · rw [hs2]
    simp [stepsSum2, cmdSteps2]

theorem steps_roundtrip_zero_accum_w :
    ∃ cmds : List MoveCmd,
      (compute_segment 0 ndA (1 / 508, 1 / 508, 1, 1, true)
          ⟨some 0, some 0, false, 0, 0⟩).1 = some cmds ∧
      cmds ≠ [] ∧
      stepsSum1 cmds = msteps1 ndA true (1 / 508) (1 / 508) 0 0 ∧
      stepsSum2 cmds = msteps2 ndA true (1 / 508) (1 / 508) 0 0 :=
  steps_roundtrip_zero_accum 0 ndA (1 / 508) (1 / 508) 1 1 true
    ⟨some 0, some 0, false, 0, 0⟩ 0 0 4 123423700 70
    rfl rfl rfl rfl rfl msteps1_508 msteps2_508 (by norm_num)
    velISR_R ceil_T_508 (by norm_num) (by norm_num)

theorem steps_roundtrip_accum_carry :
    ∃ cmds : List MoveCmd,
      (compute_segment 0 ndA (1 / 508, 1 / 508, 1, 1, true)
          ⟨some 0, some 0, false, 2147483647, 0⟩).1 = some cmds ∧
      stepsSum1 cmds = 5 ∧
      msteps1 ndA true (1 / 508) (1 / 508) 0 0 = 4 := by
  obtain ⟨d, q, hq⟩ := compute_segment_const_axis1 0 ndA (1 / 508) (1 / 508) 1 1 true
    ⟨some 0, some 0, false, 2147483647, 0⟩ 0 0 4 123423700 70
    rfl rfl rfl rfl msteps1_508 msteps2_508 (by norm_num)
    velISR_R ceil_T_508 (by norm_num)
  refine ⟨_, hq, ?_, msteps1_508⟩
  have hsum : stepsSum1 [MoveCmd.t3 ⟨70, 123423700, 0, 0, 0, 0, 0⟩
      (((2147483647 : ℤ) + 123423700 * 70) / 2147483648) 0 d q]
      = ((2147483647 : ℤ) + 123423700 * 70) / 2147483648 := by
    simp [stepsSum1, cmdSteps1]
  rw [hsum]
  omega

lemma destX_1016 : destX ndA false (1 / 1016) = 1 / 1016 := by
  show (checkLimitsTol (1 / 1016) 0 10 0.001).1 = 1 / 1016
  unfold checkLimitsTol
  rw [if_neg (by norm_num : ¬ ((1 : ℝ) / 1016 > 10)),
      if_neg (by norm_num : ¬ ((1 : ℝ) / 1016 < 0))]

lemma destY_1016 : destY ndA false (1 / 1016) = 1 / 1016 := by
  show (checkLimitsTol (1 / 1016) 0 10 0.001).1 = 1 / 1016
  unfold checkLimitsTol
  rw [if_neg (by norm_num : ¬ ((1 : ℝ) / 1016 > 10)),
      if_neg (by norm_num : ¬ ((1 : ℝ) / 1016 < 0))]

lemma msteps1_1016 : msteps1 ndA false (1 / 1016) (1 / 1016) 0 0 = 2 := by
  unfold msteps1
  rw [destX_1016, destY_1016]
  rw [show ndA.step_scale * ((1 / 1016 - 0) + (1 / 1016 - 0)) = ((2 : ℤ) : ℝ) by
    norm_num [ndA]]
  exact round_intCast 2

lemma msteps2_1016 : msteps2 ndA false (1 / 1016) (1 / 1016) 0 0 = 0 := by
  unfold msteps2
  rw [destX_1016, destY_1016]
  rw [show ndA.step_scale * ((1 / 1016 - 0) - (1 / 1016 - 0)) = 0 by norm_num [ndA]]
  exact round_zero

lemma ceil_T_1016 : ⌈|((2 : ℤ) : ℝ) / (((123423700 : ℤ) : ℝ) / 2147483648)|⌉ = (35 : ℤ) := by
  have habs : |((2 : ℤ) : ℝ) / (((123423700 : ℤ) : ℝ) / 2147483648)|
      = (4294967296 : ℝ) / 123423700 := by
    push_cast
    rw [abs_of_pos (by positivity), div_div_eq_mul_div]
    norm_num
  rw [habs]
  apply Int.ceil_eq_iff.mpr
  constructor
  · norm_num
  · norm_num

/-- Claim C10 (amended): for a waypoint list of three or more points,
plan_trajectory aborts with no motion commands when the resolution-dependent
filter leaves NO usable segment (the trimmed path is empty).  With exactly
one usable segment remaining — still "fewer than 2" — the source instead
falls back to compiling that single segment (see the accompanying
counterexample), so the original claim overstates the abort condition. -/
theorem plan_trajectory_abort_no_usable (fuel : ℕ) (nd : ND) (xyz : PenPhys)
    (v0 : ℝ × ℝ) (vtail : List (ℝ × ℝ))
    (hlen : 3 ≤ (v0 :: vtail).length)
    (hphys : nd.physXposDefined = true)
    (htrim : trimPath (if nd.resolution = 1 then 0.000348 else 0.000696) v0 vtail = []) :
    plan_trajectory fuel nd (v0 :: vtail) xyz = (none, none) := by
  have h2 : ¬ ((v0 :: vtail).length < 2) := by omega
  have h3 : ¬ ((v0 :: vtail).length < 3) := by omega
  unfold plan_trajectory
  rw [if_neg h2, hphys]
  rw [if_neg (by simp : ¬ ((!true) = true))]
  rw [if_neg h3]
  dsimp only
  rw [htrim]
  rw [if_pos (by norm_num)]

theorem plan_trajectory_abort_no_usable_w :
    plan_trajectory 0 ndA [((0 : ℝ), (0 : ℝ)), ((1 / 10000 : ℝ), (0 : ℝ)),
      ((1 / 5000 : ℝ), (0 : ℝ))] ⟨some 0, some 0, false, 0, 0⟩ = (none, none) := by
  have hd1 : ¬ (distance ((1 / 10000 : ℝ) - 0) ((0 : ℝ) - 0) ≥ 0.000696) := by
    rw [sub_zero, sub_zero, distance_axis, abs_of_pos (by norm_num : (0 : ℝ) < 1 / 10000)]
    norm_num
  have hd2 : ¬ (distance ((1 / 5000 : ℝ) - 0) ((0 : ℝ) - 0) ≥ 0.000696) := by
    rw [sub_zero, sub_zero, distance_axis, abs_of_pos (by norm_num : (0 : ℝ) < 1 / 5000)]
    norm_num
  apply plan_trajectory_abort_no_usable
  · norm_num
  · rfl
  · rw [show (if ndA.resolution = 1 then (0.000348 : ℝ) else 0.000696) = 0.000696 from
      if_neg (by decide)]
    simp only [trimPath]
    rw [if_neg hd1, if_neg hd2]

theorem plan_trajectory_single_segment_plots :
    ∃ cmds : List MoveCmd,
      (plan_trajectory 0 ndA [((0 : ℝ), (0 : ℝ)),
          ((1 / 100000 : ℝ), (1 / 100000 : ℝ)), ((1 / 1016 : ℝ), (1 / 1016 : ℝ))]
          ⟨some 0, some 0, false, 0, 0⟩).1 = some cmds ∧
      cmds.length = 1 := by
  have hd1 : ¬ (distance ((1 / 100000 : ℝ) - 0) ((1 / 100000 : ℝ) - 0) ≥ 0.000696) := by
    rw [sub_zero, distance_diag _ (by norm_num)]
    intro h
    have := sqrt2_le_threehalf
    nlinarith
  have hd2 : distance ((1 / 1016 : ℝ) - 0) ((1 / 1016 : ℝ) - 0) ≥ 0.000696 := by
    rw [sub_zero, distance_diag _ (by norm_num)]
    nlinarith [sqrt2_ge_one]
  obtain ⟨d, q, hq⟩ := compute_segment_const_axis1 0 ndA (1 / 1016) (1 / 1016) 0 0 false
    ⟨some 0, some 0, false, 0, 0⟩ 0 0 2 123423700 35
    rfl rfl rfl rfl msteps1_1016 msteps2_1016 (by norm_num)
    velISR_R ceil_T_1016 (by norm_num)
  unfold plan_trajectory
  rw [if_neg (by norm_num), if_neg (by decide : ¬ ((!ndA.physXposDefined) = true)),
      if_neg (by norm_num)]
  rw [show (if ndA.resolution = 1 then (0.000348 : ℝ) else 0.000696) = 0.000696 from
    if_neg (by decide)]
  dsimp only
  have htrim : trimPath 0.000696 ((0 : ℝ), (0 : ℝ))
      [((1 / 100000 : ℝ), (1 / 100000 : ℝ)), ((1 / 1016 : ℝ), (1 / 1016 : ℝ))]
      = [(((1 / 1016 : ℝ), (1 / 1016 : ℝ)),
          (((1 / 1016 : ℝ) - 0) / distance ((1 / 1016 : ℝ) - 0) ((1 / 1016 : ℝ) - 0),
           ((1 / 1016 : ℝ) - 0) / distance ((1 / 1016 : ℝ) - 0) ((1 / 1016 : ℝ) - 0)),
          distance ((1 / 1016 : ℝ) - 0) ((1 / 1016 : ℝ) - 0))] := by
    simp only [trimPath]
    rw [if_neg hd1, if_pos hd2]
  rw [htrim]
  rw [if_neg (by norm_num), if_pos (by norm_num)]
  simp only [List.head?_cons]
  rw [hq]
  exact ⟨_, rfl, rfl⟩
